import Mathlib

/-
Verification of the turn-resolution core of the rust-roguelike program
(src/main.rs).  The Rust data model and operations are embedded shallowly:

* `i32` values (coordinates, hit points, counters) become `Int`; none of the
  verified operations gets anywhere near `i32` overflow, so wrap-around is
  not modelled.
* `Vec<T>` becomes `List T`; `Vec::swap_remove` is embedded by `swap_remove`
  below.  In-bounds indexing `v[i]` is embedded by `List.getD i Object.dummy`
  — every indexing relevant to a claim carries an in-bounds hypothesis, so
  the dummy default (standing in for the Rust panic) is never reached.
* The map grid `Vec<Vec<Tile>>` is embedded as a total function
  `Int → Int → Tile`; the generator's nested carving loops become
  extensionally equal region updates.
* The tcod library is external to the repository; the only part the embedded
  code consumes is the field-of-view membership test, modelled as an
  arbitrary function `fov : Int → Int → Bool` in `Tcod`.
* `rand::thread_rng()` is modelled as a stream of raw draws (`Rng`);
  `gen_range lo hi` maps a raw draw into `[lo, hi)` exactly as the library
  guarantees.
* `f32` distances: the source computes `((dx.pow(2) + dy.pow(2)) as f32).sqrt()`
  and only ever *compares* such distances with each other or with an exactly
  representable integer bound (`2.0`, `(max_range + 1) as f32`).  An IEEE
  correctly rounded `sqrt` is monotone, and for the integer radicands that
  occur on the 80×43 map two distinct radicands are separated by far more
  than an f32 ulp, so every comparison of rounded square roots agrees with
  the comparison of the exact squares.  The embedding therefore tracks
  squared distances (`distance_to_sq`).
* Functions that can panic (`mut_two` with equal or out-of-range indices)
  return `Option`, with `none` standing for the panic.
-/

namespace Rogue

/-- Named tcod color constants used by the game.  Only their identity is ever
observed (messages are compared as `(text, color)` pairs), so the external
`Color { r, g, b }` records are embedded as an enumeration. -/
inductive Color where
  | white
  | red
  | green
  | orange
  | darker_red
  | light_blue
  | light_violet
  | light_green
  | desaturated_green
  | darker_green
  | violet
  | light_yellow
deriving DecidableEq

/-- `enum DeathCallback { Player, Monster }`. -/
inductive DeathCallback where
  | Player
  | Monster
deriving DecidableEq

/-- `struct Fighter { max_hp, hp, defense, power, on_death }`. -/
structure Fighter where
  max_hp : Int
  hp : Int
  defense : Int
  power : Int
  on_death : DeathCallback
deriving DecidableEq

/-- `enum Ai { Basic, Confused { previous_ai: Box<Ai>, num_turns: i32 } }`. -/
inductive Ai where
  | Basic
  | Confused (previous_ai : Ai) (num_turns : Int)
deriving DecidableEq

/-- `enum Item { Heal, Lightning, Confuse }`. -/
inductive Item where
  | Heal
  | Lightning
  | Confuse
deriving DecidableEq

/-- `struct Object { x, y, char, color, name, blocks, alive, fighter, ai, item }`. -/
structure Object where
  x : Int
  y : Int
  char : Char
  color : Color
  name : String
  blocks : Bool
  alive : Bool
  fighter : Option Fighter
  ai : Option Ai
  item : Option Item
deriving DecidableEq

/-- Stand-in value for out-of-bounds indexing (which panics in the source);
every claim-relevant index is in bounds, so it is never observed. -/
def Object.dummy : Object :=
  ⟨0, 0, ' ', Color.white, "", false, false, none, none, none⟩

/-- `Object::pos`. -/
def Object.pos (o : Object) : Int × Int := (o.x, o.y)

/-- `Object::set_pos`. -/
def Object.set_pos (o : Object) (x y : Int) : Object := { o with x := x, y := y }

/-- `struct Tile { blocked, explored, block_sight }`. -/
structure Tile where
  blocked : Bool
  explored : Bool
  block_sight : Bool
deriving DecidableEq

/-- `Tile::empty()`. -/
def Tile.empty : Tile := ⟨false, false, false⟩

/-- `Tile::wall()`. -/
def Tile.wall : Tile := ⟨true, false, true⟩

/-- `type Map = Vec<Vec<Tile>>`, embedded as a total function on coordinates
(`map[x][y]` becomes `map x y`; claim-relevant accesses are in range). -/
def Map : Type := Int → Int → Tile

/-- `struct Messages { messages: Vec<(String, Color)> }`. -/
structure Messages where
  messages : List (String × Color)
deriving DecidableEq

/-- `Messages::add`: push the `(text, color)` pair at the end. -/
def Messages.add (m : Messages) (text : String) (color : Color) : Messages :=
  ⟨m.messages ++ [(text, color)]⟩

/-- `struct Game { map, messages, inventory }`. -/
structure Game where
  map : Map
  messages : Messages
  inventory : List Object

/-- The external tcod context.  The embedded simulation consumes only the
field-of-view membership test `tcod.fov.is_in_fov(x, y)`. -/
structure Tcod where
  fov : Int → Int → Bool

/-- `rand::thread_rng()` as a stream of raw draws. -/
def Rng : Type := Nat → Nat

/-- Take one raw draw off the stream. -/
def Rng.draw (r : Rng) : Nat × Rng := (r 0, fun n => r (n + 1))

/-- `Rng::gen_range(lo, hi)`: a value in `[lo, hi)` selected by the raw
draw (the library guarantees exactly that range, uniformly distributed over
the randomness of the raw draw). -/
def gen_range (lo hi : Int) (raw : Nat) : Int :=
  lo + (raw : Int) % (hi - lo)

/-- `const PLAYER: usize = 0`. -/
def PLAYER : Nat := 0

/-- `const HEAL_AMOUNT: i32 = 4`. -/
def HEAL_AMOUNT : Int := 4

/-- `const LIGHTNING_DAMAGE: i32 = 40`. -/
def LIGHTNING_DAMAGE : Int := 40

/-- `const LIGHTNING_RANGE: i32 = 5`. -/
def LIGHTNING_RANGE : Int := 5

/-- `const CONFUSE_RANGE: i32 = 8`. -/
def CONFUSE_RANGE : Int := 8

/-- `const CONFUSE_NUM_TURNS: i32 = 10`. -/
def CONFUSE_NUM_TURNS : Int := 10

/-- Squared straight-line distance between two objects.  The source's
`Object::distance_to` returns `((dx.pow(2) + dy.pow(2)) as f32).sqrt()`;
every use site compares such a value with another one or with an exactly
representable integer, and (see the header comment) those comparisons agree
exactly with the comparisons of the squares, which is what we track. -/
def distance_to_sq (a b : Object) : Int :=
  (b.x - a.x) ^ 2 + (b.y - a.y) ^ 2

/-- `Object::is_blocked`: the tile blocks, or some blocking object sits at
`(x, y)`. -/
def is_blocked (x y : Int) (map : Map) (objects : List Object) : Bool :=
  if (map x y).blocked then
    true
  else
    objects.any (fun object => object.blocks && object.x == x && object.y == y)

/-- `Object::move_by`: move by the given amount if the destination is not
blocked. -/
def move_by (id : Nat) (dx dy : Int) (map : Map) (objects : List Object) :
    List Object :=
  let o := objects.getD id Object.dummy
  if !is_blocked (o.x + dx) (o.y + dy) map objects then
    objects.set id (o.set_pos (o.x + dx) (o.y + dy))
  else
    objects

/-- `player_death`: log "You died!" and turn the player glyph into a corpse
marker (the Fighter component is left in place). -/
def player_death (player : Object) (game : Game) : Object × Game :=
  let game := { game with messages := game.messages.add "You died!" Color.red }
  ({ player with char := '%', color := Color.darker_red }, game)

/-- `monster_death`: log the death, clear blocking/Fighter/AI, rename with the
"remains of" prefix. -/
def monster_death (monster : Object) (game : Game) : Object × Game :=
  let game :=
    { game with messages := game.messages.add (monster.name ++ " is dead!") Color.orange }
  ({ monster with
      char := '%'
      color := Color.darker_red
      blocks := false
      fighter := none
      ai := none
      name := "remains of " ++ monster.name },
    game)

/-- `DeathCallback::callback`: data-driven dispatch to the death routine. -/
def DeathCallback.callback : DeathCallback → Object → Game → Object × Game
  | DeathCallback.Player => player_death
  | DeathCallback.Monster => monster_death

/-- `Object::take_damage`: subtract the damage from hp if a Fighter is
present, then (reading the updated Fighter) run the death callback when
`hp <= 0`. -/
def take_damage (obj : Object) (damage : Int) (game : Game) : Object × Game :=
  let obj :=
    match obj.fighter with
    | some fighter => { obj with fighter := some { fighter with hp := fighter.hp - damage } }
    | none => obj
  match obj.fighter with
  | some fighter =>
    if fighter.hp ≤ 0 then
      let obj := { obj with alive := false }
      fighter.on_death.callback obj game
    else
      (obj, game)
  | none => (obj, game)

/-- `Object::attack`: `damage = attacker power - defender defense`; positive
damage is applied via `take_damage` (with an attack message), otherwise only
a no-effect message is logged.  The attacker itself is never mutated, so the
result is the updated target and game. -/
def attack (attacker target : Object) (game : Game) : Object × Game :=
  let damage :=
    (attacker.fighter.map Fighter.power).getD 0 - (target.fighter.map Fighter.defense).getD 0
  if damage > 0 then
    let game :=
      { game with
          messages := game.messages.add
            (attacker.name ++ " attacks " ++ target.name ++ " for " ++
              toString damage ++ " hit points.") Color.white }
    take_damage target damage game
  else
    (target,
      { game with
          messages := game.messages.add
            (attacker.name ++ " attacks " ++ target.name ++ ", but it has no effect!")
            Color.white })

/-- `Object::heal`: raise hp by the amount, clamped at `max_hp`. -/
def heal (obj : Object) (amount : Int) : Object :=
  match obj.fighter with
  | some fighter =>
    let hp := fighter.hp + amount
    let hp := if hp > fighter.max_hp then fighter.max_hp else hp
    { obj with fighter := some { fighter with hp := hp } }
  | none => obj

/-- `Iterator::position`: index of the first element satisfying the
predicate. -/
def position_idx (p : Object → Bool) : List Object → Option Nat
  | [] => none
  | o :: rest => if p o then some 0 else (position_idx p rest).map (· + 1)

/-- The target search inside `Object::player_move_or_attack`: the first
object with a Fighter standing at the destination tile. -/
def attack_target_id (dx dy : Int) (objects : List Object) : Option Nat :=
  let x := (objects.getD PLAYER Object.dummy).x + dx
  let y := (objects.getD PLAYER Object.dummy).y + dy
  position_idx (fun object => object.fighter.isSome && object.x == x && object.y == y) objects

/-- `Object::player_move_or_attack`: attack the Fighter-bearing occupant of
the destination tile if there is one, otherwise move.  it returns `none`
exactly when the inner `mut_two` would panic (equal or out-of-range
indices). -/
def player_move_or_attack (dx dy : Int) (game : Game) (objects : List Object) :
    Option (Game × List Object) :=
  match attack_target_id dx dy objects with
  | some target_id =>
    if target_id == PLAYER || objects.length ≤ max target_id PLAYER then
      none
    else
      let player := objects.getD PLAYER Object.dummy
      let monster := objects.getD target_id Object.dummy
      let (monster, game) := attack player monster game
      some (game, objects.set target_id monster)
  | none => some (game, move_by PLAYER dx dy game.map objects)

/-- One axis of the normalised-and-rounded step in `Object::move_towards`:
the source computes `(d as f32 / distance).round() as i32` with
`distance = sqrt s`, `s = dx^2 + dy^2 > 0`.  Since `|d| ≤ sqrt s`, the
rounded quotient is `sign d` when `|d| / sqrt s ≥ 1/2`, i.e. `4 d^2 ≥ s`,
and `0` otherwise (for integers the boundary `4 d^2 = s` would force
`d = 0`, so it is never hit, and the f32 computation is comfortably more
precise than the distance of any map-range input to that boundary). -/
def normStep (d s : Int) : Int :=
  if 4 * d ^ 2 ≥ s then Int.sign d else 0

/-- `Object::move_towards`: one `move_by` step in the direction of the
target, normalised and rounded.  When the target coincides with the source
position, `distance = 0.0`, the quotients are `0.0 / 0.0 = NaN` (f32
division never traps), and `NaN.round() as i32` saturates to `0` in Rust,
so the step is `(0, 0)`; that case is the first branch. -/
def move_towards (id : Nat) (target_x target_y : Int) (map : Map)
    (objects : List Object) : List Object :=
  let dx := target_x - (objects.getD id Object.dummy).x
  let dy := target_y - (objects.getD id Object.dummy).y
  let distance_sq := dx ^ 2 + dy ^ 2
  if distance_sq = 0 then
    move_by id 0 0 map objects
  else
    move_by id (normStep dx distance_sq) (normStep dy distance_sq) map objects

/-- `Object::ai_basic`: chase/attack when inside the viewer's FOV
(`distance_to >= 2.0` is `distance_to_sq ≥ 4`, exactly).  `none` models the
`mut_two` panic (equal or out-of-range indices in the attack branch). -/
def ai_basic (monster_id : Nat) (tcod : Tcod) (game : Game)
    (objects : List Object) : Option (Ai × Game × List Object) :=
  let o := objects.getD monster_id Object.dummy
  if tcod.fov o.x o.y then
    if distance_to_sq o (objects.getD PLAYER Object.dummy) ≥ 4 then
      some (Ai.Basic, game,
        move_towards monster_id (objects.getD PLAYER Object.dummy).x
          (objects.getD PLAYER Object.dummy).y game.map objects)
    else if ((objects.getD PLAYER Object.dummy).fighter.map
        (fun f => decide (f.hp > 0))).getD false then
      if monster_id == PLAYER || objects.length ≤ max monster_id PLAYER then
        none
      else
        let (player, game) := attack o (objects.getD PLAYER Object.dummy) game
        some (Ai.Basic, game, objects.set PLAYER player)
    else
      some (Ai.Basic, game, objects)
  else
    some (Ai.Basic, game, objects)

/-- `Object::ai_confused`: while `num_turns >= 0`, move by one uniformly
random offset per axis (`gen_range(-1, 2)`, i.e. a value in `{-1, 0, 1}`)
and decrement the counter; once the counter has gone negative, log the
"no longer confused" message and restore the wrapped previous AI. -/
def ai_confused (monster_id : Nat) (game : Game) (objects : List Object)
    (previous_ai : Ai) (num_turns : Int) (rng : Rng) :
    Ai × Game × List Object × Rng :=
  if num_turns ≥ 0 then
    let (r1, rng) := rng.draw
    let (r2, rng) := rng.draw
    let objects :=
      move_by monster_id (gen_range (-1) 2 r1) (gen_range (-1) 2 r2) game.map objects
    (Ai.Confused previous_ai (num_turns - 1), game, objects, rng)
  else
    (previous_ai,
      { game with
          messages := game.messages.add
            ("The " ++ (objects.getD monster_id Object.dummy).name ++
              " is no longer confused!") Color.red },
      objects, rng)

/-- `Object::ai_take_turn`: take the AI out of the entity, dispatch on the
state, and put the resulting state back. -/
def ai_take_turn (monster_id : Nat) (tcod : Tcod) (game : Game)
    (objects : List Object) (rng : Rng) : Option (Game × List Object × Rng) :=
  match (objects.getD monster_id Object.dummy).ai with
  | none => some (game, objects, rng)
  | some ai =>
    let objects :=
      objects.set monster_id { objects.getD monster_id Object.dummy with ai := none }
    match ai with
    | Ai.Basic =>
      match ai_basic monster_id tcod game objects with
      | none => none
      | some (new_ai, game, objects) =>
        some (game,
          objects.set monster_id
            { objects.getD monster_id Object.dummy with ai := some new_ai },
          rng)
    | Ai.Confused previous_ai num_turns =>
      let (new_ai, game, objects, rng) :=
        ai_confused monster_id game objects previous_ai num_turns rng
      some (game,
        objects.set monster_id
          { objects.getD monster_id Object.dummy with ai := some new_ai },
        rng)

/-- The main loop's per-turn AI stepping, restricted to one monster: `k`
successive game turns, each invoking `ai_take_turn` on that monster. -/
def run_turns (k : Nat) (monster_id : Nat) (tcod : Tcod) (game : Game)
    (objects : List Object) (rng : Rng) : Option (Game × List Object × Rng) :=
  match k with
  | 0 => some (game, objects, rng)
  | k + 1 =>
    match ai_take_turn monster_id tcod game objects rng with
    | none => none
    | some (game, objects, rng) => run_turns k monster_id tcod game objects rng

/-- `Vec::swap_remove(i)`: replace the element at `i` with the last element
and pop the last slot (for an in-range `i`; the source panics otherwise). -/
def swap_remove {α : Type} (l : List α) (i : Nat) : List α :=
  match l.getLast? with
  | none => l
  | some last => (l.set i last).dropLast

/-- `Object::pick_item_up`: reject when the inventory already has 26 or more
entries; otherwise `swap_remove` the item from the object list and append it
to the inventory. -/
def pick_item_up (object_id : Nat) (game : Game) (objects : List Object) :
    Game × List Object :=
  if game.inventory.length ≥ 26 then
    ({ game with
        messages := game.messages.add
          ("Your inventory is full. You cannot pick up " ++
            (objects.getD object_id Object.dummy).name ++ ".") Color.red },
      objects)
  else
    let item := objects.getD object_id Object.dummy
    let objects := swap_remove objects object_id
    let game :=
      { game with
          messages := game.messages.add ("You picked up a " ++ item.name ++ "!") Color.green }
    ({ game with inventory := game.inventory ++ [item] }, objects)

/-- `iter().enumerate()` starting at index `i`. -/
def enum_from {α : Type} (i : Nat) : List α → List (Nat × α)
  | [] => []
  | a :: rest => (i, a) :: enum_from (i + 1) rest

/-- The per-object filter inside `Object::closest_monster`: not the player,
has Fighter and AI, and is inside the viewer's FOV. -/
def monster_qualifies (tcod : Tcod) (id : Nat) (o : Object) : Bool :=
  id != PLAYER && o.fighter.isSome && o.ai.isSome && tcod.fov o.x o.y

/-- The enumeration loop of `Object::closest_monster`, carrying
`(closest_enemy, closest_dist)` (squared distances; see `distance_to_sq`). -/
def closest_monster_go (tcod : Tcod) (player : Object) :
    List (Nat × Object) → Option Nat × Int → Option Nat × Int
  | [], st => st
  | (id, o) :: rest, (closest_enemy, closest_dist) =>
    if monster_qualifies tcod id o then
      if distance_to_sq player o < closest_dist then
        closest_monster_go tcod player rest (some id, distance_to_sq player o)
      else
        closest_monster_go tcod player rest (closest_enemy, closest_dist)
    else
      closest_monster_go tcod player rest (closest_enemy, closest_dist)

/-- `Object::closest_monster`: nearest qualifying enemy; the best distance
starts at (slightly more than) the maximum range, `max_range + 1` (squared
here). -/
def closest_monster (tcod : Tcod) (objects : List Object) (max_range : Int) :
    Option Nat :=
  (closest_monster_go tcod (objects.getD PLAYER Object.dummy) (enum_from 0 objects)
    (none, (max_range + 1) ^ 2)).1

/-- `enum UseResult { UsedUp, Cancelled }`. -/
inductive UseResult where
  | UsedUp
  | Cancelled
deriving DecidableEq

/-- `cast_heal` (the `_inventory_id` and tcod arguments are unused in the
source). -/
def cast_heal (_inventory_id : Nat) (game : Game) (objects : List Object) :
    UseResult × Game × List Object :=
  match (objects.getD PLAYER Object.dummy).fighter with
  | some fighter =>
    if fighter.hp == fighter.max_hp then
      (UseResult.Cancelled,
        { game with messages := game.messages.add "You are already at full health." Color.red },
        objects)
    else
      let game :=
        { game with
            messages := game.messages.add "Your wounds start to feel better!" Color.light_violet }
      (UseResult.UsedUp, game,
        objects.set PLAYER (heal (objects.getD PLAYER Object.dummy) HEAL_AMOUNT))
  | none => (UseResult.Cancelled, game, objects)

/-- `cast_lightning`: strike the closest qualifying enemy with the fixed
damage (bypassing defense, via `take_damage` directly), else cancel with the
"no enemy" message. -/
def cast_lightning (_inventory_id : Nat) (tcod : Tcod) (game : Game)
    (objects : List Object) : UseResult × Game × List Object :=
  match closest_monster tcod objects LIGHTNING_RANGE with
  | some monster_id =>
    let game :=
      { game with
          messages := game.messages.add
            ("A lightning bolt strikes the " ++ (objects.getD monster_id Object.dummy).name ++
              " with a loud thunder! The damage is " ++ toString LIGHTNING_DAMAGE ++
              " hit points.") Color.light_blue }
    let (monster, game) := take_damage (objects.getD monster_id Object.dummy) LIGHTNING_DAMAGE game
    (UseResult.UsedUp, game, objects.set monster_id monster)
  | none =>
    (UseResult.Cancelled,
      { game with messages := game.messages.add "No enemy is close enough to strike." Color.red },
      objects)

/-- `cast_confuse`: wrap the closest qualifying enemy's AI (defaulting to
Basic) in a Confused state for `CONFUSE_NUM_TURNS` turns.  The source line
`objects[monster_id].ai = Some(Ai::Confused) { .. }` carries a stray closing
parenthesis; it is transcribed as the evidently intended
`Some(Ai::Confused { previous_ai, num_turns })`. -/
def cast_confuse (_inventory_id : Nat) (tcod : Tcod) (game : Game)
    (objects : List Object) : UseResult × Game × List Object :=
  match closest_monster tcod objects CONFUSE_RANGE with
  | some monster_id =>
    let old_ai := ((objects.getD monster_id Object.dummy).ai).getD Ai.Basic
    let objects :=
      objects.set monster_id
        { objects.getD monster_id Object.dummy with
            ai := some (Ai.Confused old_ai CONFUSE_NUM_TURNS) }
    let game :=
      { game with
          messages := game.messages.add
            ("The eyes of " ++ (objects.getD monster_id Object.dummy).name ++
              " look vacant, as he starts to stumble around!") Color.light_green }
    (UseResult.UsedUp, game, objects)
  | none =>
    (UseResult.Cancelled,
      { game with messages := game.messages.add "No enemy is close enough to strike." Color.red },
      objects)

/-- `use_item`: dispatch on the item kind; `UsedUp` removes the inventory
entry, `Cancelled` logs the generic notice. -/
def use_item (inventory_id : Nat) (tcod : Tcod) (game : Game)
    (objects : List Object) : Game × List Object :=
  match (game.inventory.getD inventory_id Object.dummy).item with
  | some item =>
    let result :=
      match item with
      | Item.Heal => cast_heal inventory_id game objects
      | Item.Lightning => cast_lightning inventory_id tcod game objects
      | Item.Confuse => cast_confuse inventory_id tcod game objects
    match result with
    | (UseResult.UsedUp, game, objects) =>
      ({ game with inventory := game.inventory.eraseIdx inventory_id }, objects)
    | (UseResult.Cancelled, game, objects) =>
      ({ game with messages := game.messages.add "Cancelled" Color.white }, objects)
  | none => (game, objects)

/-- `const MAP_WIDTH: i32 = 80`. -/
def MAP_WIDTH : Int := 80

/-- `const MAP_HEIGHT: i32 = 43`. -/
def MAP_HEIGHT : Int := 43

/-- `const ROOM_MAX_SIZE: i32 = 10`. -/
def ROOM_MAX_SIZE : Int := 10

/-- `const ROOM_MIN_SIZE: i32 = 6`. -/
def ROOM_MIN_SIZE : Int := 6

/-- `const MAX_ROOMS: i32 = 30` (a loop count). -/
def MAX_ROOMS : Nat := 30

/-- `struct Rect { x1, y1, x2, y2 }`. -/
structure Rect where
  x1 : Int
  y1 : Int
  x2 : Int
  y2 : Int
deriving DecidableEq

/-- `Rect::new(x, y, w, h)`. -/
def Rect.new (x y w h : Int) : Rect := ⟨x, y, x + w, y + h⟩

/-- `Rect::center`. -/
def Rect.center (r : Rect) : Int × Int := ((r.x1 + r.x2) / 2, (r.y1 + r.y2) / 2)

/-- `Rect::intersects_with`. -/
def Rect.intersects_with (r other : Rect) : Bool :=
  decide (r.x1 ≤ other.x2 ∧ r.x2 ≥ other.x1 ∧ r.y1 ≤ other.y2 ∧ r.y2 ≥ other.y1)

/-- `create_room`: carve every tile strictly inside the rectangle — the
nested loops over `(x1+1 .. x2) × (y1+1 .. y2)` write `Tile::empty()`, which
is extensionally this region update. -/
def create_room (room : Rect) (map : Map) : Map :=
  fun x y =>
    if room.x1 + 1 ≤ x ∧ x < room.x2 ∧ room.y1 + 1 ≤ y ∧ y < room.y2 then
      Tile.empty
    else
      map x y

/-- `create_h_tunnel`: carve the inclusive horizontal range between the two
endpoints (order-independent via min/max, as in the source). -/
def create_h_tunnel (x1 x2 y0 : Int) (map : Map) : Map :=
  fun x y =>
    if min x1 x2 ≤ x ∧ x ≤ max x1 x2 ∧ y = y0 then Tile.empty else map x y

/-- `create_v_tunnel`. -/
def create_v_tunnel (y1 y2 x0 : Int) (map : Map) : Map :=
  fun x y =>
    if x = x0 ∧ min y1 y2 ≤ y ∧ y ≤ max y1 y2 then Tile.empty else map x y

/-- The per-iteration random draws of `make_map` (room width/height/position
raw draws and the tunnel-bend coin). -/
structure RoomDraw where
  wRaw : Nat
  hRaw : Nat
  xRaw : Nat
  yRaw : Nat
  coin : Bool

/-- A carving operation performed by `make_map` (ghost trace used to state
which tiles the generator touched). -/
inductive Carve where
  | room (r : Rect)
  | htun (x1 x2 y : Int)
  | vtun (y1 y2 x : Int)
deriving DecidableEq

/-- The tile region written by a carving operation (matching `create_room`,
`create_h_tunnel`, `create_v_tunnel`). -/
def Carve.contains : Carve → Int → Int → Bool
  | Carve.room r, x, y =>
    decide (r.x1 + 1 ≤ x ∧ x < r.x2 ∧ r.y1 + 1 ≤ y ∧ y < r.y2)
  | Carve.htun x1 x2 y0, x, y =>
    decide (min x1 x2 ≤ x ∧ x ≤ max x1 x2 ∧ y = y0)
  | Carve.vtun y1 y2 x0, x, y =>
    decide (x = x0 ∧ min y1 y2 ≤ y ∧ y ≤ max y1 y2)

/-- One iteration's candidate rectangle: the random width/height in
`[ROOM_MIN_SIZE, ROOM_MAX_SIZE]` and the random position keeping the room
inside the grid, exactly the four `gen_range` draws of the `make_map`
loop body. -/
def room_candidate (d : RoomDraw) : Rect :=
  let w := gen_range ROOM_MIN_SIZE (ROOM_MAX_SIZE + 1) d.wRaw
  let h := gen_range ROOM_MIN_SIZE (ROOM_MAX_SIZE + 1) d.hRaw
  let x := gen_range 0 (MAP_WIDTH - w) d.xRaw
  let y := gen_range 0 (MAP_HEIGHT - h) d.yRaw
  Rect.new x y w h

/-- The room-placement loop of `make_map`.  `rooms` mirrors the source's
`rooms` vector with the most recently accepted room first (the source pushes
at the end and reads `rooms[rooms.len() - 1]`); `trace` records every
carving operation performed.  `place_objects` reads the map immutably and
mutates only the entity list, so this tile-level embedding omits it, as it
omits placing the player at the first room's center. -/
def make_map_loop (rng : Nat → RoomDraw) : Nat → Nat → Map → List Rect →
    List Carve → Map × List Rect × List Carve
  | _, 0, map, rooms, trace => (map, rooms, trace)
  | i, count + 1, map, rooms, trace =>
    let new_room := room_candidate (rng i)
    let failed := rooms.any (fun other_room => new_room.intersects_with other_room)
    if failed then
      make_map_loop rng (i + 1) count map rooms trace
    else
      let map := create_room new_room map
      match rooms with
      | [] =>
        make_map_loop rng (i + 1) count map [new_room] (Carve.room new_room :: trace)
      | prev_room :: _ =>
        let prev_x := prev_room.center.1
        let prev_y := prev_room.center.2
        let new_x := new_room.center.1
        let new_y := new_room.center.2
        if (rng i).coin then
          let map := create_v_tunnel prev_y new_y new_x (create_h_tunnel prev_x new_x prev_y map)
          make_map_loop rng (i + 1) count map (new_room :: rooms)
            (Carve.room new_room :: Carve.htun prev_x new_x prev_y ::
              Carve.vtun prev_y new_y new_x :: trace)
        else
          let map := create_h_tunnel prev_x new_x new_y (create_v_tunnel prev_y new_y prev_x map)
          make_map_loop rng (i + 1) count map (new_room :: rooms)
            (Carve.room new_room :: Carve.vtun prev_y new_y prev_x ::
              Carve.htun prev_x new_x new_y :: trace)

/-- `make_map`: start from an all-wall grid and run the room-placement loop
`MAX_ROOMS` times. -/
def make_map (rng : Nat → RoomDraw) : Map × List Rect × List Carve :=
  make_map_loop rng 0 MAX_ROOMS (fun _ _ => Tile.wall) [] []

/-- Concrete fixture: an all-wall map. -/
def wallMap : Map := fun _ _ => Tile.wall

/-- Concrete fixture: an all-floor map. -/
def emptyMap : Map := fun _ _ => Tile.empty

/-- Concrete fixture: the player as created in `main` (slot 0). -/
def samplePlayer : Object :=
  { x := 0, y := 0, char := '@', color := Color.white, name := "player",
    blocks := true, alive := true,
    fighter := some { max_hp := 30, hp := 30, defense := 2, power := 5,
                      on_death := DeathCallback.Player },
    ai := none, item := none }

/-- Concrete fixture: an orc as created in `place_objects`, at `(5, 2)`. -/
def sampleOrc : Object :=
  { x := 5, y := 2, char := 'o', color := Color.desaturated_green, name := "orc",
    blocks := true, alive := true,
    fighter := some { max_hp := 10, hp := 10, defense := 0, power := 3,
                      on_death := DeathCallback.Monster },
    ai := some Ai.Basic, item := none }

/-- Concrete fixture: a healing potion as created in `place_objects`. -/
def samplePotion : Object :=
  { x := 1, y := 1, char := '!', color := Color.violet, name := "healing potion",
    blocks := false, alive := false,
    fighter := none, ai := none, item := some Item.Heal }

/-- Concrete fixture: a fresh game session with an all-floor map. -/
def sampleGame : Game := { map := emptyMap, messages := ⟨[]⟩, inventory := [] }

/-- Concrete fixture: a game session whose inventory already holds 26 items. -/
def fullInventoryGame : Game :=
  { map := emptyMap, messages := ⟨[]⟩, inventory := List.replicate 26 samplePotion }

/-- Concrete fixture: a tcod context whose FOV test accepts every tile. -/
def sampleTcod : Tcod := ⟨fun _ _ => true⟩

/-- Concrete fixture: the sample orc confused for 1 further turn, wrapping a
Basic AI. -/
def confusedOrc : Object := { sampleOrc with ai := some (Ai.Confused Ai.Basic 1) }

/-! ### Helper lemmas -/

theorem getD_eq_of_get? {α : Type} {l : List α} {j : Nat} {o : α} (d : α)
    (h : l.get? j = some o) : l.getD j d = o := by
  induction l generalizing j with
  | nil => simp at h
  | cons a rest ih =>
    cases j with
    | zero =>
      simp only [List.get?] at h
      cases h
      rfl
    | succ j =>
      simp only [List.get?] at h
      simpa [List.getD_cons_succ] using ih h

/-- Characterisation of `take_damage` on an entity that has a Fighter. -/
theorem take_damage_some (obj : Object) (f : Fighter) (damage : Int) (game : Game)
    (hf : obj.fighter = some f) :
    take_damage obj damage game =
      if f.hp - damage ≤ 0 then
        f.on_death.callback
          { obj with fighter := some { f with hp := f.hp - damage }, alive := false } game
      else
        ({ obj with fighter := some { f with hp := f.hp - damage } }, game) := by
  simp only [take_damage, hf]

/-- `take_damage` on an entity without a Fighter changes nothing at all. -/
theorem take_damage_none (obj : Object) (damage : Int) (game : Game)
    (hf : obj.fighter = none) : take_damage obj damage game = (obj, game) := by
  simp [take_damage, hf]

theorem position_idx_some_spec (p : Object → Bool) :
    ∀ (l : List Object) (j : Nat), position_idx p l = some j →
      ∃ o, l.get? j = some o ∧ p o = true := by
  intro l
  induction l with
  | nil => intro j h; simp [position_idx] at h
  | cons a rest ih =>
    intro j h
    by_cases hp : p a = true
    · simp [position_idx, hp] at h
      exact h ▸ ⟨a, rfl, hp⟩
    · simp [position_idx, hp] at h
      cases hpr : position_idx p rest with
      | none => rw [hpr] at h; simp at h
      | some j' =>
        rw [hpr] at h
        simp at h
        obtain ⟨o, ho, hpo⟩ := ih j' hpr
        exact h ▸ ⟨o, by simpa using ho, hpo⟩

/-! ### Claim C3 -/

/-- Claim C3: for an attack on a defender that has a Fighter, with
`d = attacker power - defender defense`: if `d ≤ 0` the defender is entirely
unchanged and the no-effect message is logged; if `d > 0` and the resulting
hp `tf.hp - d` is still positive, the defender's hp decreases by exactly `d`
and nothing else happens; if `d > 0` and the resulting hp is `≤ 0`, the
death transition runs (corpse glyph, `alive = false`; the Player-tagged
transition keeps the Fighter with the possibly negative hp, the
Monster-tagged one clears it and renames the entity). -/
theorem claim_C3_attack (attacker target : Object) (game : Game) (tf : Fighter)
    (hf : target.fighter = some tf) :
    ((attacker.fighter.map Fighter.power).getD 0 - tf.defense ≤ 0 →
      (attack attacker target game).1 = target ∧
      (attack attacker target game).2.messages.messages =
        game.messages.messages ++
          [(attacker.name ++ " attacks " ++ target.name ++ ", but it has no effect!",
            Color.white)]) ∧
    (∀ d : Int, d = (attacker.fighter.map Fighter.power).getD 0 - tf.defense →
      0 < d → 0 < tf.hp - d →
      (attack attacker target game).1 =
        { target with fighter := some { tf with hp := tf.hp - d } } ∧
      (attack attacker target game).2.messages.messages =
        game.messages.messages ++
          [(attacker.name ++ " attacks " ++ target.name ++ " for " ++ toString d ++
            " hit points.", Color.white)]) ∧
    (∀ d : Int, d = (attacker.fighter.map Fighter.power).getD 0 - tf.defense →
      0 < d → tf.hp - d ≤ 0 →
      (attack attacker target game).1.alive = false ∧
      (attack attacker target game).1.char = '%' ∧
      (tf.on_death = DeathCallback.Player →
        (attack attacker target game).1.fighter = some { tf with hp := tf.hp - d }) ∧
      (tf.on_death = DeathCallback.Monster →
        (attack attacker target game).1.fighter = none ∧
        (attack attacker target game).1.name = "remains of " ++ target.name)) := by
  have hdef : (target.fighter.map Fighter.defense).getD 0 = tf.defense := by rw [hf]; rfl
  refine ⟨?_, ?_, ?_⟩
  · intro hle
    have hnot : ¬((attacker.fighter.map Fighter.power).getD 0 -
        (target.fighter.map Fighter.defense).getD 0 > 0) := by
      rw [hdef]; omega
    simp [attack, hnot, Messages.add]
  · intro d hd hpos hsurv
    have hgt : (attacker.fighter.map Fighter.power).getD 0 -
        (target.fighter.map Fighter.defense).getD 0 > 0 := by rw [hdef]; omega
    have hdmg : (attacker.fighter.map Fighter.power).getD 0 -
        (target.fighter.map Fighter.defense).getD 0 = d := by rw [hdef]; omega
    have hnd : ¬(tf.hp - d ≤ 0) := by omega
    simp only [attack, hdmg]
    rw [if_pos hpos]
    rw [take_damage_some target tf d _ hf]
    simp [hnd, Messages.add]
  · intro d hd hpos hdie
    have hgt : (attacker.fighter.map Fighter.power).getD 0 -
        (target.fighter.map Fighter.defense).getD 0 > 0 := by rw [hdef]; omega
    have hdmg : (attacker.fighter.map Fighter.power).getD 0 -
        (target.fighter.map Fighter.defense).getD 0 = d := by rw [hdef]; omega
    simp only [attack, hdmg]
    rw [if_pos hpos]
    rw [take_damage_some target tf d _ hf]
    rw [if_pos hdie]
    cases hod : tf.on_death with
    | Player =>
      simp [DeathCallback.callback, player_death]
    | Monster =>
      simp [DeathCallback.callback, monster_death]

/-- Witness for claim C3: the sample player (power 5) attacking the sample
orc (defense 0, hp 10) leaves the orc with hp 5 and no death. -/
theorem claim_C3_attack_witness :
    ((attack samplePlayer sampleOrc sampleGame).1).fighter =
      some { max_hp := 10, hp := 5, defense := 0, power := 3,
             on_death := DeathCallback.Monster } := by
  have h :=
    (claim_C3_attack samplePlayer sampleOrc sampleGame
        { max_hp := 10, hp := 10, defense := 0, power := 3,
          on_death := DeathCallback.Monster } rfl).2.1 5 (by decide) (by decide) (by decide)
  rw [h.1]
  decide

/-! ### Claim C10 -/

/-- Claim C10: an entity without a Fighter (in particular a corpse produced
by `monster_death`, which clears Fighter and AI, stops blocking, and gains
the "remains of" name prefix) is entirely unaffected by `take_damage`, is
never selected as the attack target by `player_move_or_attack`, and when no
Fighter-bearing entity occupies the destination tile the player action
resolves as a move. -/
theorem claim_C10_corpse :
    (∀ (obj : Object) (damage : Int) (game : Game), obj.fighter = none →
       take_damage obj damage game = (obj, game)) ∧
    (∀ (monster : Object) (game : Game),
       (monster_death monster game).1.fighter = none ∧
       (monster_death monster game).1.ai = none ∧
       (monster_death monster game).1.blocks = false ∧
       (monster_death monster game).1.name = "remains of " ++ monster.name) ∧
    (∀ (dx dy : Int) (objects : List Object) (j : Nat),
       attack_target_id dx dy objects = some j →
       ((objects.getD j Object.dummy).fighter).isSome = true) ∧
    (∀ (dx dy : Int) (game : Game) (objects : List Object),
       attack_target_id dx dy objects = none →
       player_move_or_attack dx dy game objects =
         some (game, move_by PLAYER dx dy game.map objects)) := by
  refine ⟨?_, ?_, ?_, ?_⟩
  · intro obj damage game hf
    exact take_damage_none obj damage game hf
  · intro monster game
    simp [monster_death]
  · intro dx dy objects j h
    obtain ⟨o, ho, hp⟩ := position_idx_some_spec _ objects j h
    rw [getD_eq_of_get? Object.dummy ho]
    simp only [Bool.and_eq_true] at hp
    exact hp.1.1
  · intro dx dy game objects h
    simp [player_move_or_attack, h]

/-- Witness for claim C10: the dead sample orc takes no damage, and a player
step onto its tile resolves as a move. -/
theorem claim_C10_corpse_witness :
    take_damage (monster_death sampleOrc sampleGame).1 5 sampleGame =
      ((monster_death sampleOrc sampleGame).1, sampleGame) ∧
    player_move_or_attack 5 2 sampleGame [samplePlayer, (monster_death sampleOrc sampleGame).1] =
      some (sampleGame,
        move_by PLAYER 5 2 sampleGame.map [samplePlayer, (monster_death sampleOrc sampleGame).1]) := by
  exact ⟨claim_C10_corpse.1 _ 5 sampleGame (by decide),
    claim_C10_corpse.2.2.2 5 2 sampleGame _ (by decide)⟩

/-! ### Claim C2 -/

/-- Counterexample for claim C2 as stated: the death transition is NOT
triggered at most once per entity.  The sample player killed by a 30-point
hit is already dead (`alive = false`), yet a further `take_damage 1` runs
`player_death` a second time — the log gains "You died!" twice, because
`player_death` does not clear the Fighter component. -/
theorem claim_C2_counterexample :
    ((take_damage samplePlayer 30 sampleGame).1).alive = false ∧
    ((take_damage samplePlayer 30 sampleGame).2).messages.messages =
      [("You died!", Color.red)] ∧
    ((take_damage (take_damage samplePlayer 30 sampleGame).1 1
        (take_damage samplePlayer 30 sampleGame).2).2).messages.messages =
      [("You died!", Color.red), ("You died!", Color.red)] := by
  decide

/-- Claim C2 (amended): `take_damage` subtracts the damage from hp, and the
death transition runs exactly when the resulting hp is `≤ 0`.  For
Monster-tagged fighters it runs exactly once over the entity's lifetime:
`monster_death` clears the Fighter, and `take_damage` on an entity without a
Fighter changes nothing.  The Player-tagged transition keeps the Fighter, so
a dead player re-runs `player_death` on every further `take_damage`. -/
theorem claim_C2_amended :
    (∀ (obj : Object) (f : Fighter) (damage : Int) (game : Game),
       obj.fighter = some f → 0 < f.hp - damage →
       take_damage obj damage game =
         ({ obj with fighter := some { f with hp := f.hp - damage } }, game)) ∧
    (∀ (obj : Object) (f : Fighter) (damage : Int) (game : Game),
       obj.fighter = some f → f.hp - damage ≤ 0 →
       (take_damage obj damage game).1.alive = false ∧
       (f.on_death = DeathCallback.Monster →
         (take_damage obj damage game).1.fighter = none) ∧
       (f.on_death = DeathCallback.Player →
         (take_damage obj damage game).1.fighter = some { f with hp := f.hp - damage } ∧
         (take_damage obj damage game).2.messages.messages =
           game.messages.messages ++ [("You died!", Color.red)])) ∧
    (∀ (obj : Object) (damage : Int) (game : Game), obj.fighter = none →
       take_damage obj damage game = (obj, game)) := by
  refine ⟨?_, ?_, ?_⟩
  · intro obj f damage game hf hsurv
    rw [take_damage_some obj f damage game hf, if_neg (by omega)]
  · intro obj f damage game hf hdie
    rw [take_damage_some obj f damage game hf, if_pos hdie]
    cases hod : f.on_death with
    | Player => simp [DeathCallback.callback, player_death, Messages.add]
    | Monster => simp [DeathCallback.callback, monster_death]
  · intro obj damage game hf
    exact take_damage_none obj damage game hf

/-- Witness for claim C2: a 10-point hit kills the sample orc (hp 10,
Monster-tagged), and the transition clears its Fighter. -/
theorem claim_C2_amended_witness :
    (take_damage sampleOrc 10 sampleGame).1.alive = false ∧
    (take_damage sampleOrc 10 sampleGame).1.fighter = none := by
  have h := claim_C2_amended.2.1 sampleOrc
    { max_hp := 10, hp := 10, defense := 0, power := 3, on_death := DeathCallback.Monster }
    10 sampleGame rfl (by decide)
  exact ⟨h.1, h.2.1 rfl⟩

/-! ### Claim C4 -/

/-- Claim C4: a pickup attempted with 26 (or more) inventory entries fails
with the logged rejection and changes neither the inventory nor the object
list; a pickup with fewer than 26 entries swap-removes the item from the
object list and appends it to the inventory; consequently the inventory
never grows beyond 26 entries. -/
theorem claim_C4_inventory_capacity (object_id : Nat) (game : Game)
    (objects : List Object) :
    (game.inventory.length ≥ 26 →
      (pick_item_up object_id game objects).2 = objects ∧
      (pick_item_up object_id game objects).1.inventory = game.inventory ∧
      (pick_item_up object_id game objects).1.messages.messages =
        game.messages.messages ++
          [("Your inventory is full. You cannot pick up " ++
              (objects.getD object_id Object.dummy).name ++ ".", Color.red)]) ∧
    (game.inventory.length < 26 →
      (pick_item_up object_id game objects).2 = swap_remove objects object_id ∧
      (pick_item_up object_id game objects).1.inventory =
        game.inventory ++ [objects.getD object_id Object.dummy] ∧
      (pick_item_up object_id game objects).1.messages.messages =
        game.messages.messages ++
          [("You picked up a " ++ (objects.getD object_id Object.dummy).name ++ "!",
            Color.green)]) ∧
    (game.inventory.length ≤ 26 →
      (pick_item_up object_id game objects).1.inventory.length ≤ 26) := by
  by_cases h : game.inventory.length ≥ 26
  · refine ⟨fun _ => ?_, fun hlt => absurd h (by omega), fun _ => ?_⟩
    · simp [pick_item_up, h, Messages.add]
    · simp only [pick_item_up, if_pos h]
      omega
  · refine ⟨fun hge => absurd hge h, fun _ => ?_, fun _ => ?_⟩
    · simp [pick_item_up, h, Messages.add]
    · simp only [pick_item_up, if_neg h]
      simp only [List.length_append, List.length_singleton]
      omega

/-- Witness for claim C4: with a full 26-slot inventory the pickup leaves
the inventory as it is; with an empty inventory the potion is appended. -/
theorem claim_C4_inventory_capacity_witness :
    (pick_item_up 1 fullInventoryGame [samplePlayer, samplePotion]).1.inventory =
      List.replicate 26 samplePotion ∧
    (pick_item_up 1 sampleGame [samplePlayer, samplePotion]).1.inventory = [samplePotion] := by
  constructor
  · exact ((claim_C4_inventory_capacity 1 fullInventoryGame
      [samplePlayer, samplePotion]).1 (by decide)).2.1
  · have h := ((claim_C4_inventory_capacity 1 sampleGame
      [samplePlayer, samplePotion]).2.1 (by decide)).2.1
    rw [h]
    decide

/-! ### Claim C1 -/

/-- Counterexample for claim C1 as stated: a successful pickup does change
the index of another entity.  With objects `[player, potion, orc]`, picking
up the potion (index 1) swap-removes it: the orc moves from index 2 to
index 1, so removal is not non-reordering. -/
theorem claim_C1_counterexample :
    (pick_item_up 1 sampleGame [samplePlayer, samplePotion, sampleOrc]).1.inventory =
      [samplePotion] ∧
    [samplePlayer, samplePotion, sampleOrc].get? 2 = some sampleOrc ∧
    (pick_item_up 1 sampleGame [samplePlayer, samplePotion, sampleOrc]).2 =
      [samplePlayer, sampleOrc] := by
  decide

/-- Length of `swap_remove` on a non-empty list. -/
theorem swap_remove_length {α : Type} (l : List α) (i : Nat) (h : l ≠ []) :
    (swap_remove l i).length = l.length - 1 := by
  have hlt : l.length - 1 < l.length := by
    cases l with
    | nil => exact absurd rfl h
    | cons a rest => simp
  obtain ⟨last, hlast⟩ : ∃ a, l[l.length - 1]? = some a :=
    ⟨_, List.getElem?_eq_some.mpr ⟨hlt, rfl⟩⟩
  have hsr : swap_remove l i = (l.set i last).dropLast := by
    rw [swap_remove, List.getLast?_eq_getElem?, hlast]
  rw [hsr]
  simp [List.length_dropLast, List.length_set]

/-- Element-wise description of `swap_remove` at an in-range index: every
slot except `i` keeps its element, slot `i` receives the last element, and
the final slot disappears. -/
theorem swap_remove_getElem? {α : Type} (l : List α) (i j : Nat)
    (hi : i < l.length) :
    (swap_remove l i)[j]? =
      if j < l.length - 1 then
        (if j = i then l[l.length - 1]? else l[j]?)
      else none := by
  have hlt : l.length - 1 < l.length := by omega
  obtain ⟨last, hlast⟩ : ∃ a, l[l.length - 1]? = some a :=
    ⟨_, List.getElem?_eq_some.mpr ⟨hlt, rfl⟩⟩
  have hsr : swap_remove l i = (l.set i last).dropLast := by
    rw [swap_remove, List.getLast?_eq_getElem?, hlast]
  rw [hsr, List.dropLast_eq_take, List.length_set]
  by_cases hj : j < l.length - 1
  · rw [if_pos hj, List.getElem?_take_of_lt hj]
    by_cases hji : j = i
    · subst hji
      rw [if_pos rfl, List.getElem?_set_self (by omega), hlast]
    · rw [if_neg hji, List.getElem?_set_ne (fun hij => hji hij.symm)]
  · rw [if_neg hj]
    apply List.getElem?_eq_none
    simp only [List.length_take, List.length_set]
    omega

/-- Claim C1 (amended): a successful pickup (`inventory < 26`) of an item at
index `object_id > 0` keeps the player at index 0 and keeps every entity
other than the last at its index; removal is `Vec::swap_remove`, so the LAST
entity is moved into the removed slot (removal is not non-reordering in
general), and the picked item is appended to the inventory. -/
theorem claim_C1_amended (object_id : Nat) (game : Game) (objects : List Object)
    (hcap : game.inventory.length < 26) (h0 : 0 < object_id)
    (hlen : object_id < objects.length) :
    (pick_item_up object_id game objects).2.length = objects.length - 1 ∧
    (pick_item_up object_id game objects).2[0]? = objects[0]? ∧
    (∀ i : Nat, i < objects.length - 1 → i ≠ object_id →
      (pick_item_up object_id game objects).2[i]? = objects[i]?) ∧
    (object_id < objects.length - 1 →
      (pick_item_up object_id game objects).2[object_id]? =
        objects[objects.length - 1]?) ∧
    (pick_item_up object_id game objects).1.inventory =
      game.inventory ++ [objects.getD object_id Object.dummy] := by
  have hne : objects ≠ [] := by
    intro hnil
    subst hnil
    simp at hlen
  have h26 : ¬(game.inventory.length ≥ 26) := by omega
  have h2 : (pick_item_up object_id game objects).2 = swap_remove objects object_id := by
    simp [pick_item_up, h26]
  refine ⟨?_, ?_, ?_, ?_, ?_⟩
  · rw [h2]
    exact swap_remove_length objects object_id hne
  · rw [h2, swap_remove_getElem? objects object_id 0 hlen]
    rw [if_pos (by omega), if_neg (by omega)]
  · intro i hi hne2
    rw [h2, swap_remove_getElem? objects object_id i hlen]
    rw [if_pos hi, if_neg hne2]
  · intro hmid
    rw [h2, swap_remove_getElem? objects object_id object_id hlen]
    rw [if_pos hmid, if_pos rfl]
  · simp [pick_item_up, h26]

/-- Witness for claim C1: picking up the potion at index 1 of
`[player, potion, orc]` with an empty inventory keeps the player at slot 0
and moves the orc into slot 1. -/
theorem claim_C1_amended_witness :
    (pick_item_up 1 sampleGame [samplePlayer, samplePotion, sampleOrc]).2[0]? =
      some samplePlayer ∧
    (pick_item_up 1 sampleGame [samplePlayer, samplePotion, sampleOrc]).2[1]? =
      some sampleOrc := by
  have h := claim_C1_amended 1 sampleGame [samplePlayer, samplePotion, sampleOrc]
    (by decide) (by decide) (by decide)
  constructor
  · rw [h.2.1]
    decide
  · rw [h.2.2.2.1 (by decide)]
    decide

/-! ### Claim C7 -/

/-- Unfolding of a false `is_blocked` test: the tile does not block and no
blocking object stands at the coordinates. -/
theorem is_blocked_eq_false {x y : Int} {map : Map} {objects : List Object}
    (h : is_blocked x y map objects = false) :
    (map x y).blocked = false ∧
    ∀ o ∈ objects, ¬(o.blocks = true ∧ o.x = x ∧ o.y = y) := by
  by_cases hb : (map x y).blocked
  · simp [is_blocked, hb] at h
  · refine ⟨by simpa using hb, ?_⟩
    simp only [is_blocked, hb, if_false, Bool.false_eq_true] at h
    intro o ho hcon
    have hany := List.any_eq_false.mp h o ho
    simp [hcon.1, hcon.2.1, hcon.2.2] at hany

/-- `l.set i (l.getD i d) = l` for an in-range index. -/
theorem set_getD_self {α : Type} (l : List α) (i : Nat) (d : α) :
    l.set i (l.getD i d) = l := by
  induction l generalizing i with
  | nil => rfl
  | cons a rest ih =>
    cases i with
    | zero => rfl
    | succ i => simpa [List.getD_cons_succ, List.set] using ih i

/-- Branch characterisation of `move_by`. -/
theorem move_by_eq (id : Nat) (dx dy : Int) (map : Map) (objects : List Object) :
    move_by id dx dy map objects =
      if is_blocked ((objects.getD id Object.dummy).x + dx)
          ((objects.getD id Object.dummy).y + dy) map objects = true
      then objects
      else objects.set id ((objects.getD id Object.dummy).set_pos
        ((objects.getD id Object.dummy).x + dx)
        ((objects.getD id Object.dummy).y + dy)) := by
  simp only [move_by]
  by_cases h : is_blocked ((objects.getD id Object.dummy).x + dx)
      ((objects.getD id Object.dummy).y + dy) map objects = true
  · rw [h]
    simp
  · have hb : is_blocked ((objects.getD id Object.dummy).x + dx)
        ((objects.getD id Object.dummy).y + dy) map objects = false := by
      simpa using h
    rw [hb]
    simp

/-- `move_by` with a zero displacement never changes the object list. -/
theorem move_by_zero (id : Nat) (map : Map) (objects : List Object) :
    move_by id 0 0 map objects = objects := by
  rw [move_by_eq]
  split_ifs with h
  · rfl
  · have hset : (objects.getD id Object.dummy).set_pos
        ((objects.getD id Object.dummy).x + 0) ((objects.getD id Object.dummy).y + 0) =
        objects.getD id Object.dummy := by
      simp [Object.set_pos]
    rw [hset, set_getD_self]

/-- Counterexample for claim C7 as stated: the unconditional post-state
"after moveBy the entity's tile has blocked = false" fails.  The sample orc
standing on an all-wall map attempts a step; the destination is blocked, the
move is a silent no-op, and the orc's tile still blocks. -/
theorem claim_C7_counterexample :
    move_by 0 1 0 wallMap [sampleOrc] = [sampleOrc] ∧
    (wallMap ((move_by 0 1 0 wallMap [sampleOrc]).getD 0 Object.dummy).x
      ((move_by 0 1 0 wallMap [sampleOrc]).getD 0 Object.dummy).y).blocked = true := by
  decide

/-- Claim C7 (amended): if the destination tile is blocked (by the map or by
a blocking entity) `move_by` leaves the object list unchanged (silent
no-op); if it is unblocked, the entity moves there, the destination tile has
`blocked = false`, and no other blocking entity occupies it.  Consequently
the unconditional post-state of the original claim holds whenever the
entity's starting tile already satisfies it: `move_by` preserves "stands on
an unblocked tile shared with no other blocking entity". -/
theorem claim_C7_amended (id : Nat) (dx dy : Int) (map : Map)
    (objects : List Object) (hid : id < objects.length) :
    (is_blocked ((objects.getD id Object.dummy).x + dx)
        ((objects.getD id Object.dummy).y + dy) map objects = true →
      move_by id dx dy map objects = objects) ∧
    (is_blocked ((objects.getD id Object.dummy).x + dx)
        ((objects.getD id Object.dummy).y + dy) map objects = false →
      ((move_by id dx dy map objects).getD id Object.dummy).x =
        (objects.getD id Object.dummy).x + dx ∧
      ((move_by id dx dy map objects).getD id Object.dummy).y =
        (objects.getD id Object.dummy).y + dy ∧
      (map ((objects.getD id Object.dummy).x + dx)
        ((objects.getD id Object.dummy).y + dy)).blocked = false ∧
      (∀ (j : Nat) (oj : Object), j ≠ id →
        (move_by id dx dy map objects)[j]? = some oj →
        ¬(oj.blocks = true ∧ oj.x = (objects.getD id Object.dummy).x + dx ∧
          oj.y = (objects.getD id Object.dummy).y + dy))) ∧
    ((map (objects.getD id Object.dummy).x
        (objects.getD id Object.dummy).y).blocked = false →
     (∀ (j : Nat) (oj : Object), j ≠ id → objects[j]? = some oj →
        ¬(oj.blocks = true ∧ oj.x = (objects.getD id Object.dummy).x ∧
          oj.y = (objects.getD id Object.dummy).y)) →
     (map ((move_by id dx dy map objects).getD id Object.dummy).x
        ((move_by id dx dy map objects).getD id Object.dummy).y).blocked = false ∧
     (∀ (j : Nat) (oj : Object), j ≠ id →
        (move_by id dx dy map objects)[j]? = some oj →
        ¬(oj.blocks = true ∧
          oj.x = ((move_by id dx dy map objects).getD id Object.dummy).x ∧
          oj.y = ((move_by id dx dy map objects).getD id Object.dummy).y))) := by
  have hblocked : ∀ h : is_blocked ((objects.getD id Object.dummy).x + dx)
      ((objects.getD id Object.dummy).y + dy) map objects = true,
      move_by id dx dy map objects = objects := by
    intro h
    rw [move_by_eq, if_pos h]
  have hfree : ∀ h : is_blocked ((objects.getD id Object.dummy).x + dx)
      ((objects.getD id Object.dummy).y + dy) map objects = false,
      move_by id dx dy map objects =
        objects.set id ((objects.getD id Object.dummy).set_pos
          ((objects.getD id Object.dummy).x + dx)
          ((objects.getD id Object.dummy).y + dy)) := by
    intro h
    have hne : ¬(is_blocked ((objects.getD id Object.dummy).x + dx)
        ((objects.getD id Object.dummy).y + dy) map objects = true) := by
      rw [h]
      simp
    rw [move_by_eq, if_neg hne]
  have hgetD_set : ∀ v : Object, (objects.set id v).getD id Object.dummy = v := by
    intro v
    rw [List.getD_eq_getElem?_getD, List.getElem?_set_self hid]
    rfl
  refine ⟨hblocked, ?_, ?_⟩
  · intro h
    obtain ⟨htile, hobjs⟩ := is_blocked_eq_false h
    rw [hfree h]
    refine ⟨?_, ?_, htile, ?_⟩
    · rw [hgetD_set]; rfl
    · rw [hgetD_set]; rfl
    · intro j oj hj hoj hcon
      rw [List.getElem?_set_ne (fun hh => hj hh.symm)] at hoj
      obtain ⟨hjlt, rfl⟩ := List.getElem?_eq_some.mp hoj
      exact hobjs _ (List.getElem_mem hjlt) hcon
  · intro htile0 hobjs0
    cases hb : is_blocked ((objects.getD id Object.dummy).x + dx)
        ((objects.getD id Object.dummy).y + dy) map objects with
    | true =>
      rw [hblocked hb]
      exact ⟨htile0, hobjs0⟩
    | false =>
      obtain ⟨htile, hobjs⟩ := is_blocked_eq_false hb
      rw [hfree hb, hgetD_set]
      refine ⟨htile, ?_⟩
      intro j oj hj hoj hcon
      rw [List.getElem?_set_ne (fun hh => hj hh.symm)] at hoj
      obtain ⟨hjlt, rfl⟩ := List.getElem?_eq_some.mp hoj
      exact hobjs _ (List.getElem_mem hjlt) hcon

/-- Witness for claim C7: on an all-floor map the sample player steps from
`(0, 0)` to `(1, 0)`, an unblocked tile. -/
theorem claim_C7_amended_witness :
    ((move_by 0 1 0 emptyMap [samplePlayer]).getD 0 Object.dummy).x = 0 + 1 ∧
    (emptyMap (0 + 1) (0 + 0)).blocked = false := by
  have h := (claim_C7_amended 0 1 0 emptyMap [samplePlayer] (by decide)).2.1 (by decide)
  exact ⟨h.1, h.2.2.1⟩

/-! ### Claim C9 -/

/-- Bounds for one normalised-and-rounded step axis. -/
theorem normStep_bounds (d s : Int) : -1 ≤ normStep d s ∧ normStep d s ≤ 1 := by
  have hsign : -1 ≤ Int.sign d ∧ Int.sign d ≤ 1 := by
    cases d with
    | ofNat n => cases n <;> simp [Int.sign]
    | negSucc n => simp [Int.sign]
  unfold normStep
  by_cases h : 4 * d ^ 2 ≥ s
  · simpa [h] using hsign
  · simp [h]

/-- Claim C9: `move_towards` aimed at the entity's own position is a no-op
(the `0.0 / 0.0 = NaN` quotients round-trip to a zero step, with no trap);
aimed anywhere else it performs exactly one `move_by` step whose offset is
one of the 8 grid directions (each axis in `{-1, 0, 1}`, not both zero). -/
theorem claim_C9_move_towards (id : Nat) (target_x target_y : Int) (map : Map)
    (objects : List Object) (hid : id < objects.length) :
    (target_x = (objects.getD id Object.dummy).x →
     target_y = (objects.getD id Object.dummy).y →
     move_towards id target_x target_y map objects = objects) ∧
    (¬(target_x = (objects.getD id Object.dummy).x ∧
       target_y = (objects.getD id Object.dummy).y) →
     ∃ sdx sdy : Int, ¬(sdx = 0 ∧ sdy = 0) ∧
       -1 ≤ sdx ∧ sdx ≤ 1 ∧ -1 ≤ sdy ∧ sdy ≤ 1 ∧
       move_towards id target_x target_y map objects =
         move_by id sdx sdy map objects) := by
  constructor
  · intro hx hy
    have hz : (target_x - (objects.getD id Object.dummy).x) ^ 2 +
        (target_y - (objects.getD id Object.dummy).y) ^ 2 = 0 := by
      rw [hx, hy]; ring
    simp only [move_towards, hz, if_pos]
    exact move_by_zero id map objects
  · intro hne
    set dx := target_x - (objects.getD id Object.dummy).x with hdx
    set dy := target_y - (objects.getD id Object.dummy).y with hdy
    have hnz : ¬(dx = 0 ∧ dy = 0) := by
      intro hcon
      exact hne ⟨by omega, by omega⟩
    have hs : 0 < dx ^ 2 + dy ^ 2 := by
      rcases Decidable.em (dx = 0) with h0 | h0
      · have hdy0 : dy ≠ 0 := fun hh => hnz ⟨h0, hh⟩
        have := pow_two_pos_of_ne_zero hdy0
        nlinarith [sq_nonneg dx]
      · have := pow_two_pos_of_ne_zero h0
        nlinarith [sq_nonneg dy]
    have hsne : ¬(dx ^ 2 + dy ^ 2 = 0) := by omega
    refine ⟨normStep dx (dx ^ 2 + dy ^ 2), normStep dy (dx ^ 2 + dy ^ 2), ?_, ?_, ?_, ?_, ?_, ?_⟩
    · intro hcon
      have hx0 : normStep dx (dx ^ 2 + dy ^ 2) = 0 := hcon.1
      have hy0 : normStep dy (dx ^ 2 + dy ^ 2) = 0 := hcon.2
      unfold normStep at hx0 hy0
      by_cases hcx : 4 * dx ^ 2 ≥ dx ^ 2 + dy ^ 2
      · rw [if_pos hcx] at hx0
        have : dx = 0 := Int.sign_eq_zero_iff_zero.mp hx0
        have hcy : 4 * dy ^ 2 ≥ dx ^ 2 + dy ^ 2 := by nlinarith
        rw [if_pos hcy] at hy0
        have : dy = 0 := Int.sign_eq_zero_iff_zero.mp hy0
        exact hnz ⟨by assumption, this⟩
      · by_cases hcy : 4 * dy ^ 2 ≥ dx ^ 2 + dy ^ 2
        · rw [if_pos hcy] at hy0
          have hdy0 : dy = 0 := Int.sign_eq_zero_iff_zero.mp hy0
          rw [hdy0] at hcx
          simp at hcx
          exact absurd hcx (by nlinarith)
        · push_neg at hcx hcy
          omega
    · exact (normStep_bounds dx (dx ^ 2 + dy ^ 2)).1
    · exact (normStep_bounds dx (dx ^ 2 + dy ^ 2)).2
    · exact (normStep_bounds dy (dx ^ 2 + dy ^ 2)).1
    · exact (normStep_bounds dy (dx ^ 2 + dy ^ 2)).2
    · simp only [move_towards, hsne, if_neg]
      rfl

/-- Witness for claim C9: aiming the sample player at its own position
changes nothing, and aiming it at `(5, 0)` is a `move_by` step with both
offsets in `{-1, 0, 1}`. -/
theorem claim_C9_move_towards_witness :
    move_towards 0 0 0 emptyMap [samplePlayer] = [samplePlayer] ∧
    ∃ sdx sdy : Int, ¬(sdx = 0 ∧ sdy = 0) ∧
      -1 ≤ sdx ∧ sdx ≤ 1 ∧ -1 ≤ sdy ∧ sdy ≤ 1 ∧
      move_towards 0 5 0 emptyMap [samplePlayer] = move_by 0 sdx sdy emptyMap [samplePlayer] := by
  constructor
  · exact (claim_C9_move_towards 0 0 0 emptyMap [samplePlayer] (by decide)).1
      (by decide) (by decide)
  · exact (claim_C9_move_towards 0 5 0 emptyMap [samplePlayer] (by decide)).2
      (by decide)

/-! ### Claim C5 -/

/-- `gen_range` really lands in `[lo, hi)`. -/
theorem gen_range_mem (lo hi : Int) (raw : Nat) (h : lo < hi) :
    lo ≤ gen_range lo hi raw ∧ gen_range lo hi raw < hi := by
  unfold gen_range
  have h1 : 0 ≤ (raw : Int) % (hi - lo) := Int.emod_nonneg _ (by omega)
  have h2 : (raw : Int) % (hi - lo) < hi - lo := Int.emod_lt_of_pos _ (by omega)
  omega

/-- `move_by` never changes the length of the object list. -/
theorem move_by_length (id : Nat) (dx dy : Int) (map : Map)
    (objects : List Object) : (move_by id dx dy map objects).length = objects.length := by
  rw [move_by_eq]
  split_ifs <;> simp [List.length_set]

/-- One confused AI step with a non-negative counter: the monster stays
confused with the counter decremented, the game is untouched, two raw rng
draws are consumed, and the only mutation of the object list is a `move_by`
whose offsets are the two `gen_range (-1) 2` draws, each in `{-1, 0, 1}`. -/
theorem ai_take_turn_confused_pos (id : Nat) (tcod : Tcod) (game : Game)
    (objects : List Object) (rng : Rng) (p : Ai) (m : Int)
    (hid : id < objects.length)
    (hai : (objects.getD id Object.dummy).ai = some (Ai.Confused p m))
    (hm : 0 ≤ m) :
    ∃ (dx dy : Int) (objects2 : List Object),
      -1 ≤ dx ∧ dx ≤ 1 ∧ -1 ≤ dy ∧ dy ≤ 1 ∧
      ai_take_turn id tcod game objects rng =
        some (game, objects2, fun n => rng (n + 2)) ∧
      objects2 =
        (move_by id dx dy game.map
          (objects.set id { objects.getD id Object.dummy with ai := none })).set id
          { (move_by id dx dy game.map
              (objects.set id { objects.getD id Object.dummy with ai := none })).getD id
              Object.dummy with ai := some (Ai.Confused p (m - 1)) } ∧
      objects2.length = objects.length ∧
      (objects2.getD id Object.dummy).ai = some (Ai.Confused p (m - 1)) := by
  have hb1 := gen_range_mem (-1) 2 (rng 0) (by omega)
  have hb2 := gen_range_mem (-1) 2 (rng 1) (by omega)
  refine ⟨gen_range (-1) 2 (rng 0), gen_range (-1) 2 (rng 1), _,
    hb1.1, by omega, hb2.1, by omega, ?_, rfl, ?_, ?_⟩
  · simp only [ai_take_turn, hai, ai_confused, Rng.draw, if_pos hm]
  · simp only [List.length_set, move_by_length]
  · have hlen : id <
        (move_by id (gen_range (-1) 2 (rng 0)) (gen_range (-1) 2 (rng 1)) game.map
          (objects.set id { objects.getD id Object.dummy with ai := none })).length := by
      rw [move_by_length, List.length_set]
      exact hid
    rw [List.getD_eq_getElem?_getD, List.getElem?_set_self hlen]
    rfl

/-- The confused AI step once the counter has gone negative: the "no longer
confused" message is logged and the wrapped previous AI is restored
verbatim. -/
theorem ai_take_turn_confused_neg (id : Nat) (tcod : Tcod) (game : Game)
    (objects : List Object) (rng : Rng) (p : Ai) (m : Int)
    (hid : id < objects.length)
    (hai : (objects.getD id Object.dummy).ai = some (Ai.Confused p m))
    (hm : m < 0) :
    ∃ objects2 : List Object,
      ai_take_turn id tcod game objects rng =
        some ({ game with messages := game.messages.add ("The " ++ (objects.getD id Object.dummy).name ++ " is no longer confused!") Color.red }, objects2, rng) ∧
      objects2.length = objects.length ∧
      (objects2.getD id Object.dummy).ai = some p := by
  have hname : ((objects.set id { objects.getD id Object.dummy with ai := none }).getD id
      Object.dummy).name = (objects.getD id Object.dummy).name := by
    rw [List.getD_eq_getElem?_getD, List.getElem?_set_self hid]
    rfl
  refine ⟨(objects.set id { objects.getD id Object.dummy with ai := none }).set id
      { (objects.set id { objects.getD id Object.dummy with ai := none }).getD id
          Object.dummy with ai := some p }, ?_, ?_, ?_⟩
  · simp only [ai_take_turn, hai, ai_confused, if_neg (by omega : ¬(m ≥ 0))]
    rw [hname]
  · simp only [List.length_set]
  · rw [List.getD_eq_getElem?_getD, List.getElem?_set_self (by
      rw [List.length_set]
      exact hid)]
    rfl

/-- Iterating the AI step while the counter stays non-negative: after `k`
turns (with `k ≤ n + 1`) the monster's AI is `Confused p (n - k)` and the
game (in particular the message log) is unchanged. -/
theorem run_turns_confused (id : Nat) (tcod : Tcod) (p : Ai) :
    ∀ (k : Nat) (n : Int) (game : Game) (objects : List Object) (rng : Rng),
      id < objects.length →
      (objects.getD id Object.dummy).ai = some (Ai.Confused p n) →
      (k : Int) ≤ n + 1 →
      ∃ (game2 : Game) (objects2 : List Object) (rng2 : Rng),
        run_turns k id tcod game objects rng = some (game2, objects2, rng2) ∧
        objects2.length = objects.length ∧
        (objects2.getD id Object.dummy).ai = some (Ai.Confused p (n - k)) ∧
        game2 = game := by
  intro k
  induction k with
  | zero =>
    intro n game objects rng hid hai _
    exact ⟨game, objects, rng, rfl, rfl, by simpa using hai, rfl⟩
  | succ k ih =>
    intro n game objects rng hid hai hk
    have hn0 : 0 ≤ n := by
      have : ((k + 1 : Nat) : Int) = (k : Int) + 1 := by push_cast; ring
      omega
    obtain ⟨dx, dy, objects2, _, _, _, _, hstep, _, hlen2, hai2⟩ :=
      ai_take_turn_confused_pos id tcod game objects rng p n hid hai hn0
    have hid2 : id < objects2.length := by rw [hlen2]; exact hid
    have hk2 : (k : Int) ≤ (n - 1) + 1 := by
      have : ((k + 1 : Nat) : Int) = (k : Int) + 1 := by push_cast; ring
      omega
    obtain ⟨game3, objects3, rng3, hrun, hlen3, hai3, hg3⟩ :=
      ih (n - 1) game objects2 (fun n => rng (n + 2)) hid2 hai2 hk2
    refine ⟨game3, objects3, rng3, ?_, ?_, ?_, hg3⟩
    · simp only [run_turns, hstep, hrun]
    · rw [hlen3, hlen2]
    · have : n - 1 - (k : Int) = n - ((k + 1 : Nat) : Int) := by push_cast; ring
      rw [← this]
      exact hai3

/-- Claim C5: a monster whose AI is `Confused p n` with `n ≥ 0` stays
confused for exactly `n + 1` AI steps (counters `n, n-1, …, 0`, i.e. after
`k ≤ n + 1` steps the AI is `Confused p (n - k)`); each such step moves the
monster by one `move_by` whose per-axis offsets are rng draws in
`{-1, 0, 1}`; and on the step where the counter has gone negative the
"no longer confused" message is logged and the AI becomes exactly the
wrapped state `p`. -/
theorem claim_C5_confusion (p : Ai) (n : Int) (id : Nat) (tcod : Tcod)
    (game : Game) (objects : List Object) (rng : Rng)
    (hid : id < objects.length) (hn : 0 ≤ n)
    (hai : (objects.getD id Object.dummy).ai = some (Ai.Confused p n)) :
    (∀ k : Nat, (k : Int) ≤ n + 1 →
      ∃ (game2 : Game) (objects2 : List Object) (rng2 : Rng),
        run_turns k id tcod game objects rng = some (game2, objects2, rng2) ∧
        (objects2.getD id Object.dummy).ai = some (Ai.Confused p (n - k)) ∧
        game2 = game) ∧
    (∀ (g : Game) (os : List Object) (r : Rng) (m : Int),
      id < os.length → (os.getD id Object.dummy).ai = some (Ai.Confused p m) →
      0 ≤ m →
      ∃ (dx dy : Int) (os2 : List Object),
        -1 ≤ dx ∧ dx ≤ 1 ∧ -1 ≤ dy ∧ dy ≤ 1 ∧
        ai_take_turn id tcod g os r = some (g, os2, fun nn => r (nn + 2)) ∧
        os2 =
          (move_by id dx dy g.map
            (os.set id { os.getD id Object.dummy with ai := none })).set id
            { (move_by id dx dy g.map
                (os.set id { os.getD id Object.dummy with ai := none })).getD id
                Object.dummy with ai := some (Ai.Confused p (m - 1)) }) ∧
    (∃ (game2 : Game) (objects2 : List Object) (rng2 : Rng),
      run_turns (n.toNat + 1) id tcod game objects rng = some (game2, objects2, rng2) ∧
      (objects2.getD id Object.dummy).ai = some (Ai.Confused p (-1)) ∧
      ∃ objects3 : List Object,
        ai_take_turn id tcod game2 objects2 rng2 =
          some ({ game2 with messages := game2.messages.add ("The " ++ (objects2.getD id Object.dummy).name ++ " is no longer confused!") Color.red }, objects3, rng2) ∧
        (objects3.getD id Object.dummy).ai = some p) := by
  refine ⟨?_, ?_, ?_⟩
  · intro k hk
    obtain ⟨game2, objects2, rng2, hrun, _, hai2, hg⟩ :=
      run_turns_confused id tcod p k n game objects rng hid hai hk
    exact ⟨game2, objects2, rng2, hrun, hai2, hg⟩
  · intro g os r m hid2 hai2 hm
    obtain ⟨dx, dy, os2, h1, h2, h3, h4, hstep, hshape, _, _⟩ :=
      ai_take_turn_confused_pos id tcod g os r p m hid2 hai2 hm
    exact ⟨dx, dy, os2, h1, h2, h3, h4, hstep, hshape⟩
  · have hcast : ((n.toNat + 1 : Nat) : Int) = n + 1 := by
      rw [Nat.cast_add, Int.toNat_of_nonneg hn]
      rfl
    obtain ⟨game2, objects2, rng2, hrun, hlen2, hai2, hg⟩ :=
      run_turns_confused id tcod p (n.toNat + 1) n game objects rng hid hai (le_of_eq hcast)
    have hai2m : (objects2.getD id Object.dummy).ai = some (Ai.Confused p (-1)) := by
      rw [hai2, hcast]
      congr 2
      omega
    have hid2 : id < objects2.length := by rw [hlen2]; exact hid
    obtain ⟨objects3, hstep, _, hai3⟩ :=
      ai_take_turn_confused_neg id tcod game2 objects2 rng2 p (-1) hid2 hai2m (by omega)
    exact ⟨game2, objects2, rng2, hrun, hai2m, objects3, hstep, hai3⟩

/-- Witness for claim C5: the sample orc confused for `n = 1` further turn;
after 2 steps its counter is `-1` and the game log is untouched. -/
theorem claim_C5_confusion_witness :
    ∃ (game2 : Game) (objects2 : List Object) (rng2 : Rng),
      run_turns 2 1 sampleTcod sampleGame [samplePlayer, confusedOrc] (fun _ => 0) =
        some (game2, objects2, rng2) ∧
      (objects2.getD 1 Object.dummy).ai = some (Ai.Confused Ai.Basic (1 - ((2 : Nat) : Int))) ∧
      game2 = sampleGame :=
  (claim_C5_confusion Ai.Basic 1 1 sampleTcod sampleGame [samplePlayer, confusedOrc]
    (fun _ => 0) (by decide) (by decide) (by decide)).1 2 (by decide)

/-! ### Claim C6 -/

/-- Indexing into an enumeration. -/
theorem enum_from_getElem? {α : Type} :
    ∀ (l : List α) (i n : Nat),
      (enum_from i l)[n]? = (l[n]?).map (fun a => (i + n, a)) := by
  intro l
  induction l with
  | nil => intro i n; simp [enum_from]
  | cons a rest ih =>
    intro i n
    cases n with
    | zero => simp [enum_from]
    | succ n =>
      have harith : i + 1 + n = i + (n + 1) := by omega
      simp only [enum_from, List.getElem?_cons_succ, ih (i + 1) n, harith]

/-- A member of an enumeration is an indexed element of the base list. -/
theorem enum_from_mem {α : Type} :
    ∀ (l : List α) (i k : Nat) (o : α), (k, o) ∈ enum_from i l →
      ∃ j : Nat, k = i + j ∧ l[j]? = some o := by
  intro l
  induction l with
  | nil => intro i k o h; simp [enum_from] at h
  | cons a rest ih =>
    intro i k o h
    rcases List.mem_cons.mp h with heq | hmem
    · injection heq with hk ho
      subst ho
      exact ⟨0, by omega, by simp⟩
    · obtain ⟨j, hk, hj⟩ := ih (i + 1) k o hmem
      exact ⟨j + 1, by omega, by simpa using hj⟩

/-- Conversely, every indexed element of the base list appears in the
enumeration. -/
theorem enum_from_mem_of_getElem? {α : Type} :
    ∀ (l : List α) (i k : Nat) (o : α), l[k]? = some o →
      (i + k, o) ∈ enum_from i l := by
  intro l
  induction l with
  | nil => intro i k o h; simp at h
  | cons a rest ih =>
    intro i k o h
    cases k with
    | zero =>
      simp only [List.getElem?_cons_zero] at h
      injection h with h
      subst h
      simp [enum_from]
    | succ k =>
      simp only [List.getElem?_cons_succ] at h
      have := ih (i + 1) k o h
      have harith : i + 1 + k = i + (k + 1) := by omega
      rw [harith] at this
      exact List.mem_cons.mpr (Or.inr this)

/-- Splitting an enumeration at an element determines that element's index
and bounds the indices before it. -/
theorem enum_from_append {α : Type} :
    ∀ (l : List α) (i : Nat) (l1 : List (Nat × α)) (j : Nat) (o : α)
      (l2 : List (Nat × α)),
      enum_from i l = l1 ++ (j, o) :: l2 →
      j = i + l1.length ∧ ∀ q ∈ l1, q.1 < j := by
  intro l
  induction l with
  | nil =>
    intro i l1 j o l2 h
    simp only [enum_from] at h
    exact absurd h (by simp)
  | cons a rest ih =>
    intro i l1 j o l2 h
    simp only [enum_from] at h
    cases l1 with
    | nil =>
      simp only [List.nil_append, List.cons.injEq] at h
      injection h.1 with hj ho
      refine ⟨?_, by simp⟩
      simp only [List.length_nil]
      omega
    | cons q l1' =>
      simp only [List.cons_append, List.cons.injEq] at h
      obtain ⟨hq, hrest⟩ := h
      obtain ⟨hj, hbound⟩ := ih (i + 1) l1' j o l2 hrest
      refine ⟨?_, ?_⟩
      · simp only [List.length_cons]
        omega
      intro q' hq'
      rcases List.mem_cons.mp hq' with rfl | hmem
      · rw [← hq]
        omega
      · exact hbound q' hmem

/-- Unfolding of the qualification test of `closest_monster`. -/
theorem monster_qualifies_iff (tcod : Tcod) (k : Nat) (o : Object) :
    monster_qualifies tcod k o = true ↔
      (k ≠ PLAYER ∧ o.fighter.isSome = true ∧ o.ai.isSome = true ∧
        tcod.fov o.x o.y = true) := by
  simp [monster_qualifies, Bool.and_eq_true, bne_iff_ne, and_assoc]

/-- Master invariant of the `closest_monster` accumulator loop: either no
qualifying entry of the list beats the incoming best distance and the state
passes through, or the result is the first qualifying entry realising the
minimum distance (strictly better than every qualifying entry before it,
at least as good as every one after it). -/
theorem closest_monster_go_spec (tcod : Tcod) (player : Object) :
    ∀ (l : List (Nat × Object)) (ce : Option Nat) (cd : Int),
      (closest_monster_go tcod player l (ce, cd) = (ce, cd) ∧
        ∀ q ∈ l, monster_qualifies tcod q.1 q.2 = true →
          ¬(distance_to_sq player q.2 < cd)) ∨
      (∃ (l1 : List (Nat × Object)) (j : Nat) (o : Object)
          (l2 : List (Nat × Object)),
        l = l1 ++ (j, o) :: l2 ∧ monster_qualifies tcod j o = true ∧
        (closest_monster_go tcod player l (ce, cd)).1 = some j ∧
        (closest_monster_go tcod player l (ce, cd)).2 = distance_to_sq player o ∧
        distance_to_sq player o < cd ∧
        (∀ q ∈ l1, monster_qualifies tcod q.1 q.2 = true →
          distance_to_sq player o < distance_to_sq player q.2) ∧
        (∀ q ∈ l2, monster_qualifies tcod q.1 q.2 = true →
          distance_to_sq player o ≤ distance_to_sq player q.2)) := by
  intro l
  induction l with
  | nil =>
    intro ce cd
    left
    exact ⟨rfl, by simp⟩
  | cons hd rest ih =>
    intro ce cd
    obtain ⟨hid, ho⟩ := hd
    by_cases hq : monster_qualifies tcod hid ho = true
    · by_cases hlt : distance_to_sq player ho < cd
      · have hgo : closest_monster_go tcod player ((hid, ho) :: rest) (ce, cd) =
            closest_monster_go tcod player rest (some hid, distance_to_sq player ho) := by
          simp [closest_monster_go, hq, hlt]
        rcases ih (some hid) (distance_to_sq player ho) with
          ⟨heq, hall⟩ | ⟨l1, j, o, l2, hsplit, hqj, h1, h2, hltj, hl1, hl2⟩
        · right
          refine ⟨[], hid, ho, rest, by simp, hq, ?_, ?_, hlt, by simp, ?_⟩
          · rw [hgo, heq]
          · rw [hgo, heq]
          · intro q hqmem hqq
            have := hall q hqmem hqq
            omega
        · right
          refine ⟨(hid, ho) :: l1, j, o, l2, by simp [hsplit], hqj,
            by rw [hgo]; exact h1, by rw [hgo]; exact h2, by omega, ?_, hl2⟩
          intro q hqmem hqq
          rcases List.mem_cons.mp hqmem with rfl | hmem
          · simpa using hltj
          · exact hl1 q hmem hqq
      · have hgo : closest_monster_go tcod player ((hid, ho) :: rest) (ce, cd) =
            closest_monster_go tcod player rest (ce, cd) := by
          simp [closest_monster_go, hq, hlt]
        rcases ih ce cd with
          ⟨heq, hall⟩ | ⟨l1, j, o, l2, hsplit, hqj, h1, h2, hltj, hl1, hl2⟩
        · left
          refine ⟨by rw [hgo, heq], ?_⟩
          intro q hqmem hqq
          rcases List.mem_cons.mp hqmem with rfl | hmem
          · simpa using hlt
          · exact hall q hmem hqq
        · right
          refine ⟨(hid, ho) :: l1, j, o, l2, by simp [hsplit], hqj,
            by rw [hgo]; exact h1, by rw [hgo]; exact h2, hltj, ?_, hl2⟩
          intro q hqmem hqq
          rcases List.mem_cons.mp hqmem with rfl | hmem
          · simp only []
            omega
          · exact hl1 q hmem hqq
    · have hgo : closest_monster_go tcod player ((hid, ho) :: rest) (ce, cd) =
          closest_monster_go tcod player rest (ce, cd) := by
        simp [closest_monster_go, hq]
      rcases ih ce cd with
        ⟨heq, hall⟩ | ⟨l1, j, o, l2, hsplit, hqj, h1, h2, hltj, hl1, hl2⟩
      · left
        refine ⟨by rw [hgo, heq], ?_⟩
        intro q hqmem hqq
        rcases List.mem_cons.mp hqmem with rfl | hmem
        · exact absurd hqq hq
        · exact hall q hmem hqq
      · right
        refine ⟨(hid, ho) :: l1, j, o, l2, by simp [hsplit], hqj,
          by rw [hgo]; exact h1, by rw [hgo]; exact h2, hltj, ?_, hl2⟩
        intro q hqmem hqq
        rcases List.mem_cons.mp hqmem with rfl | hmem
        · exact absurd hqq hq
        · exact hl1 q hmem hqq

/-- Counterexample for claim C6 as stated: the search can return a target
OUTSIDE the fixed maximum range.  With the player at `(0,0)` and the orc at
`(5,2)` — squared distance 29, i.e. ≈ 5.39, beyond `LIGHTNING_RANGE = 5` —
`closest_monster` still returns the orc, because the code only requires the
distance to be strictly below `max_range + 1`. -/
theorem claim_C6_counterexample :
    closest_monster sampleTcod [samplePlayer, sampleOrc] LIGHTNING_RANGE = some 1 ∧
    distance_to_sq samplePlayer sampleOrc = 29 ∧
    LIGHTNING_RANGE ^ 2 < distance_to_sq samplePlayer sampleOrc := by
  decide

/-- Claim C6 (amended): the nearest-target search returns a target only if
it is a non-player entity with Fighter and AI present, inside the field of
view, and at squared distance strictly below `(max_range + 1)^2` from the
player (NOT within `max_range`: anything strictly closer than
`max_range + 1` qualifies); among qualifying entities it returns one at
minimum distance, ties broken by strict comparison so the first entity in
iteration order wins; if no entity qualifies, `cast_lightning` is Cancelled
with the "no enemy" message and `use_item` leaves the inventory (and the
object list) unchanged. -/
theorem claim_C6_closest_monster (tcod : Tcod) (objects : List Object)
    (max_range : Int) :
    (∀ j : Nat, closest_monster tcod objects max_range = some j →
      ∃ o : Object, objects[j]? = some o ∧ j ≠ PLAYER ∧
        o.fighter.isSome = true ∧ o.ai.isSome = true ∧ tcod.fov o.x o.y = true ∧
        distance_to_sq (objects.getD PLAYER Object.dummy) o < (max_range + 1) ^ 2 ∧
        (∀ (k : Nat) (ok : Object), objects[k]? = some ok →
          monster_qualifies tcod k ok = true →
          distance_to_sq (objects.getD PLAYER Object.dummy) o ≤
            distance_to_sq (objects.getD PLAYER Object.dummy) ok) ∧
        (∀ (k : Nat) (ok : Object), k < j → objects[k]? = some ok →
          monster_qualifies tcod k ok = true →
          distance_to_sq (objects.getD PLAYER Object.dummy) o <
            distance_to_sq (objects.getD PLAYER Object.dummy) ok)) ∧
    (closest_monster tcod objects max_range = none →
      ∀ (k : Nat) (ok : Object), objects[k]? = some ok →
        monster_qualifies tcod k ok = true →
        ¬(distance_to_sq (objects.getD PLAYER Object.dummy) ok < (max_range + 1) ^ 2)) ∧
    (∀ game : Game, closest_monster tcod objects LIGHTNING_RANGE = none →
      cast_lightning 0 tcod game objects =
        (UseResult.Cancelled, { game with messages := game.messages.add "No enemy is close enough to strike." Color.red }, objects)) ∧
    (∀ (inventory_id : Nat) (game : Game),
      closest_monster tcod objects LIGHTNING_RANGE = none →
      (game.inventory.getD inventory_id Object.dummy).item = some Item.Lightning →
      (use_item inventory_id tcod game objects).1.inventory = game.inventory ∧
      (use_item inventory_id tcod game objects).2 = objects ∧
      (use_item inventory_id tcod game objects).1.messages.messages =
        game.messages.messages ++
          [("No enemy is close enough to strike.", Color.red),
            ("Cancelled", Color.white)]) := by
  refine ⟨?_, ?_, ?_, ?_⟩
  · intro j hj
    rcases closest_monster_go_spec tcod (objects.getD PLAYER Object.dummy)
        (enum_from 0 objects) none ((max_range + 1) ^ 2) with
      ⟨heq, _⟩ | ⟨l1, j', o, l2, hsplit, hqj, h1, h2, hltj, hl1, hl2⟩
    · rw [closest_monster, heq] at hj
      exact absurd hj (by simp)
    · rw [closest_monster, h1] at hj
      injection hj with hj
      subst hj
      obtain ⟨k0, hk0, hobj0⟩ :=
        enum_from_mem objects 0 j' o (by rw [hsplit]; simp)
      have hobj : objects[j']? = some o := by
        rw [show j' = k0 by omega]
        exact hobj0
      obtain ⟨hne, hfi, hal, hfov⟩ := (monster_qualifies_iff tcod j' o).mp hqj
      obtain ⟨hjpos, hbefore⟩ := enum_from_append objects 0 l1 j' o l2 hsplit
      refine ⟨o, hobj, hne, hfi, hal, hfov, hltj, ?_, ?_⟩
      · intro k ok hk hqk
        have hmem := enum_from_mem_of_getElem? objects 0 k ok hk
        rw [Nat.zero_add] at hmem
        rw [hsplit] at hmem
        rcases List.mem_append.mp hmem with hmem1 | hmem2
        · exact le_of_lt (hl1 (k, ok) hmem1 hqk)
        · rcases List.mem_cons.mp hmem2 with heq | hmem3
          · injection heq with h1' h2'
            rw [h2']
          · exact hl2 (k, ok) hmem3 hqk
      · intro k ok hklt hk hqk
        have hball : (enum_from 0 objects)[k]? = some (k, ok) := by
          rw [enum_from_getElem? objects 0 k, hk]
          simp
        have hkl1 : (k, ok) ∈ l1 := by
          rw [hsplit] at hball
          rw [List.getElem?_append] at hball
          have hlen1 : k < l1.length := by omega
          rw [if_pos hlen1] at hball
          obtain ⟨hklen, hkeq⟩ := List.getElem?_eq_some.mp hball
          rw [← hkeq]
          exact List.getElem_mem hklen
        exact hl1 (k, ok) hkl1 hqk
  · intro hnone k ok hk hqk
    rcases closest_monster_go_spec tcod (objects.getD PLAYER Object.dummy)
        (enum_from 0 objects) none ((max_range + 1) ^ 2) with
      ⟨heq, hall⟩ | ⟨l1, j', o, l2, hsplit, hqj, h1, h2, hltj, hl1, hl2⟩
    · have hmem := enum_from_mem_of_getElem? objects 0 k ok hk
      rw [Nat.zero_add] at hmem
      exact hall (k, ok) hmem hqk
    · rw [closest_monster, h1] at hnone
      exact absurd hnone (by simp)
  · intro game hnone
    simp [cast_lightning, hnone]
  · intro inventory_id game hnone hitem
    simp only [List.getD_eq_getElem?_getD] at hitem
    simp [use_item, hitem, cast_lightning, hnone, Messages.add]

/-- Witness for claim C6: two orcs in view, at squared distances 29 and 2;
the search returns the closer one (index 2), and its distance is at most
that of the other qualifying entity. -/
theorem claim_C6_closest_monster_witness :
    ∃ o : Object,
      [samplePlayer, sampleOrc, { sampleOrc with x := 1, y := 1 }][(2 : Nat)]? = some o ∧
      (2 : Nat) ≠ PLAYER ∧
      o.fighter.isSome = true ∧ o.ai.isSome = true ∧ sampleTcod.fov o.x o.y = true ∧
      distance_to_sq ([samplePlayer, sampleOrc,
        { sampleOrc with x := 1, y := 1 }].getD PLAYER Object.dummy) o <
        (LIGHTNING_RANGE + 1) ^ 2 ∧
      (∀ (k : Nat) (ok : Object),
        [samplePlayer, sampleOrc, { sampleOrc with x := 1, y := 1 }][k]? = some ok →
        monster_qualifies sampleTcod k ok = true →
        distance_to_sq ([samplePlayer, sampleOrc,
          { sampleOrc with x := 1, y := 1 }].getD PLAYER Object.dummy) o ≤
          distance_to_sq ([samplePlayer, sampleOrc,
            { sampleOrc with x := 1, y := 1 }].getD PLAYER Object.dummy) ok) ∧
      (∀ (k : Nat) (ok : Object), k < 2 →
        [samplePlayer, sampleOrc, { sampleOrc with x := 1, y := 1 }][k]? = some ok →
        monster_qualifies sampleTcod k ok = true →
        distance_to_sq ([samplePlayer, sampleOrc,
          { sampleOrc with x := 1, y := 1 }].getD PLAYER Object.dummy) o <
          distance_to_sq ([samplePlayer, sampleOrc,
            { sampleOrc with x := 1, y := 1 }].getD PLAYER Object.dummy) ok) :=
  (claim_C6_closest_monster sampleTcod
    [samplePlayer, sampleOrc, { sampleOrc with x := 1, y := 1 }] LIGHTNING_RANGE).1
    2 (by decide)

/-! ### Claim C8 -/

/-- `Rect::intersects_with` is symmetric. -/
theorem intersects_with_symm (a b : Rect) :
    a.intersects_with b = b.intersects_with a := by
  simp only [Rect.intersects_with]
  rw [decide_eq_decide]
  constructor <;> intro h <;> omega

/-- Carving a room preserves already-carved tiles. -/
theorem create_room_mono (room : Rect) (map : Map) (x y : Int)
    (h : map x y = Tile.empty) : create_room room map x y = Tile.empty := by
  unfold create_room
  split_ifs with hc
  · rfl
  · exact h

/-- Carving a horizontal tunnel preserves already-carved tiles. -/
theorem create_h_tunnel_mono (x1 x2 y0 : Int) (map : Map) (x y : Int)
    (h : map x y = Tile.empty) : create_h_tunnel x1 x2 y0 map x y = Tile.empty := by
  unfold create_h_tunnel
  split_ifs with hc
  · rfl
  · exact h

/-- Carving a vertical tunnel preserves already-carved tiles. -/
theorem create_v_tunnel_mono (y1 y2 x0 : Int) (map : Map) (x y : Int)
    (h : map x y = Tile.empty) : create_v_tunnel y1 y2 x0 map x y = Tile.empty := by
  unfold create_v_tunnel
  split_ifs with hc
  · rfl
  · exact h

/-- A room carve empties its interior. -/
theorem create_room_carves (room : Rect) (map : Map) (x y : Int)
    (hx1 : room.x1 + 1 ≤ x) (hx2 : x < room.x2)
    (hy1 : room.y1 + 1 ≤ y) (hy2 : y < room.y2) :
    create_room room map x y = Tile.empty := by
  unfold create_room
  rw [if_pos ⟨hx1, hx2, hy1, hy2⟩]

/-- Outside its region, a room carve changes nothing. -/
theorem create_room_outside (room : Rect) (map : Map) (x y : Int)
    (h : (Carve.room room).contains x y = false) :
    create_room room map x y = map x y := by
  unfold create_room
  exact if_neg (of_decide_eq_false h)

/-- Outside its region, a horizontal tunnel carve changes nothing. -/
theorem create_h_tunnel_outside (x1 x2 y0 : Int) (map : Map) (x y : Int)
    (h : (Carve.htun x1 x2 y0).contains x y = false) :
    create_h_tunnel x1 x2 y0 map x y = map x y := by
  unfold create_h_tunnel
  exact if_neg (of_decide_eq_false h)

/-- Outside its region, a vertical tunnel carve changes nothing. -/
theorem create_v_tunnel_outside (y1 y2 x0 : Int) (map : Map) (x y : Int)
    (h : (Carve.vtun y1 y2 x0).contains x y = false) :
    create_v_tunnel y1 y2 x0 map x y = map x y := by
  unfold create_v_tunnel
  exact if_neg (of_decide_eq_false h)

/-- Invariant transfer across one accepted room of the generator loop,
abstracted over the carved map `m2` and the carve operations `ops` the
branch performs. -/
theorem accepted_step_inv (map m2 : Map) (rooms : List Rect) (trace : List Carve)
    (new_room : Rect) (ops : List Carve)
    (hfail : rooms.any (fun other_room => new_room.intersects_with other_room) = false)
    (hops_room : Carve.room new_room ∈ ops)
    (hops_no_other : ∀ r : Rect, Carve.room r ∈ ops → r = new_room)
    (hmono : ∀ x y : Int, map x y = Tile.empty → m2 x y = Tile.empty)
    (hcarve_new : ∀ x y : Int, new_room.x1 + 1 ≤ x → x < new_room.x2 →
      new_room.y1 + 1 ≤ y → y < new_room.y2 → m2 x y = Tile.empty)
    (houtside : ∀ x y : Int, (∀ c ∈ ops, c.contains x y = false) → m2 x y = map x y)
    (inv1 : List.Pairwise
      (fun a b => a.intersects_with b = false ∧ b.intersects_with a = false) rooms)
    (inv2 : ∀ r ∈ rooms, ∀ x y : Int,
      r.x1 + 1 ≤ x → x < r.x2 → r.y1 + 1 ≤ y → y < r.y2 → map x y = Tile.empty)
    (inv3 : ∀ x y : Int, (∀ c ∈ trace, c.contains x y = false) → map x y = Tile.wall)
    (inv4 : ∀ r : Rect, Carve.room r ∈ trace ↔ r ∈ rooms) :
    List.Pairwise
      (fun a b => a.intersects_with b = false ∧ b.intersects_with a = false)
      (new_room :: rooms) ∧
    (∀ r ∈ new_room :: rooms, ∀ x y : Int,
      r.x1 + 1 ≤ x → x < r.x2 → r.y1 + 1 ≤ y → y < r.y2 → m2 x y = Tile.empty) ∧
    (∀ x y : Int, (∀ c ∈ ops ++ trace, c.contains x y = false) →
      m2 x y = Tile.wall) ∧
    (∀ r : Rect, Carve.room r ∈ ops ++ trace ↔ r ∈ new_room :: rooms) := by
  have hnointer : ∀ other ∈ rooms, new_room.intersects_with other = false := by
    intro other hother
    have := List.any_eq_false.mp hfail other hother
    simpa using this
  refine ⟨?_, ?_, ?_, ?_⟩
  · rw [List.pairwise_cons]
    refine ⟨?_, inv1⟩
    intro b hb
    exact ⟨hnointer b hb, by rw [intersects_with_symm]; exact hnointer b hb⟩
  · intro r hr x y hx1 hx2 hy1 hy2
    rcases List.mem_cons.mp hr with rfl | hmem
    · exact hcarve_new x y hx1 hx2 hy1 hy2
    · exact hmono x y (inv2 r hmem x y hx1 hx2 hy1 hy2)
  · intro x y hall
    have hops : ∀ c ∈ ops, c.contains x y = false := by
      intro c hc
      exact hall c (List.mem_append.mpr (Or.inl hc))
    have htrace : ∀ c ∈ trace, c.contains x y = false := by
      intro c hc
      exact hall c (List.mem_append.mpr (Or.inr hc))
    rw [houtside x y hops]
    exact inv3 x y htrace
  · intro r
    constructor
    · intro h
      rcases List.mem_append.mp h with hin | hin
      · exact List.mem_cons.mpr (Or.inl (hops_no_other r hin))
      · exact List.mem_cons.mpr (Or.inr ((inv4 r).mp hin))
    · intro h
      rcases List.mem_cons.mp h with rfl | hmem
      · exact List.mem_append.mpr (Or.inl hops_room)
      · exact List.mem_append.mpr (Or.inr ((inv4 r).mpr hmem))

/-- Invariants of the room-placement loop: accepted rooms are pairwise
non-intersecting, their interiors are carved empty, and every tile outside
all recorded carving operations is still a wall; the room carves recorded in
the trace are exactly the accepted rooms. -/
theorem make_map_loop_inv (rng : Nat → RoomDraw) :
    ∀ (count i : Nat) (map : Map) (rooms : List Rect) (trace : List Carve),
      List.Pairwise
        (fun a b => a.intersects_with b = false ∧ b.intersects_with a = false) rooms →
      (∀ r ∈ rooms, ∀ x y : Int,
        r.x1 + 1 ≤ x → x < r.x2 → r.y1 + 1 ≤ y → y < r.y2 → map x y = Tile.empty) →
      (∀ x y : Int, (∀ c ∈ trace, c.contains x y = false) → map x y = Tile.wall) →
      (∀ r : Rect, Carve.room r ∈ trace ↔ r ∈ rooms) →
      List.Pairwise
        (fun a b => a.intersects_with b = false ∧ b.intersects_with a = false)
        (make_map_loop rng i count map rooms trace).2.1 ∧
      (∀ r ∈ (make_map_loop rng i count map rooms trace).2.1, ∀ x y : Int,
        r.x1 + 1 ≤ x → x < r.x2 → r.y1 + 1 ≤ y → y < r.y2 →
        (make_map_loop rng i count map rooms trace).1 x y = Tile.empty) ∧
      (∀ x y : Int,
        (∀ c ∈ (make_map_loop rng i count map rooms trace).2.2, c.contains x y = false) →
        (make_map_loop rng i count map rooms trace).1 x y = Tile.wall) ∧
      (∀ r : Rect, Carve.room r ∈ (make_map_loop rng i count map rooms trace).2.2 ↔
        r ∈ (make_map_loop rng i count map rooms trace).2.1) := by
  intro count
  induction count with
  | zero =>
    intro i map rooms trace inv1 inv2 inv3 inv4
    exact ⟨inv1, inv2, inv3, inv4⟩
  | succ count ih =>
    intro i map rooms trace inv1 inv2 inv3 inv4
    by_cases hfail : rooms.any (fun other_room =>
        (room_candidate (rng i)).intersects_with other_room) = true
    · have hstep : make_map_loop rng i (count + 1) map rooms trace =
          make_map_loop rng (i + 1) count map rooms trace := by
        simp only [make_map_loop]
        rw [if_pos hfail]
      rw [hstep]
      exact ih (i + 1) map rooms trace inv1 inv2 inv3 inv4
    · have hfail' : rooms.any (fun other_room =>
          (room_candidate (rng i)).intersects_with other_room) = false := by
        simpa using hfail
      cases rooms with
      | nil =>
        have hstep : make_map_loop rng i (count + 1) map [] trace =
            make_map_loop rng (i + 1) count
              (create_room (room_candidate (rng i)) map)
              [room_candidate (rng i)]
              (Carve.room (room_candidate (rng i)) :: trace) := by
          simp only [make_map_loop]
          rw [if_neg hfail]
        rw [hstep]
        obtain ⟨j1, j2, j3, j4⟩ := accepted_step_inv map
          (create_room (room_candidate (rng i)) map) [] trace
          (room_candidate (rng i)) [Carve.room (room_candidate (rng i))]
          (by simp) (by simp)
          (by intro r hr; simpa using hr)
          (fun x y h => create_room_mono _ map x y h)
          (fun x y hx1 hx2 hy1 hy2 => create_room_carves _ map x y hx1 hx2 hy1 hy2)
          (fun x y hall => create_room_outside _ map x y (hall _ (by simp)))
          inv1 inv2 inv3 inv4
        exact ih (i + 1) _ _ _ j1 j2 j3 j4
      | cons prev_room rest =>
        by_cases hcoin : (rng i).coin = true
        · have hstep : make_map_loop rng i (count + 1) map (prev_room :: rest) trace =
              make_map_loop rng (i + 1) count
                (create_v_tunnel prev_room.center.2 ((room_candidate (rng i)).center.2)
                  ((room_candidate (rng i)).center.1)
                  (create_h_tunnel prev_room.center.1 ((room_candidate (rng i)).center.1)
                    prev_room.center.2 (create_room (room_candidate (rng i)) map)))
                (room_candidate (rng i) :: prev_room :: rest)
                (Carve.room (room_candidate (rng i)) ::
                  Carve.htun prev_room.center.1 ((room_candidate (rng i)).center.1)
                    prev_room.center.2 ::
                  Carve.vtun prev_room.center.2 ((room_candidate (rng i)).center.2)
                    ((room_candidate (rng i)).center.1) :: trace) := by
            simp only [make_map_loop, hcoin]
            rw [if_neg hfail]
            simp
          rw [hstep]
          obtain ⟨j1, j2, j3, j4⟩ := accepted_step_inv map
            (create_v_tunnel prev_room.center.2 ((room_candidate (rng i)).center.2)
              ((room_candidate (rng i)).center.1)
              (create_h_tunnel prev_room.center.1 ((room_candidate (rng i)).center.1)
                prev_room.center.2 (create_room (room_candidate (rng i)) map)))
            (prev_room :: rest) trace (room_candidate (rng i))
            [Carve.room (room_candidate (rng i)),
              Carve.htun prev_room.center.1 ((room_candidate (rng i)).center.1)
                prev_room.center.2,
              Carve.vtun prev_room.center.2 ((room_candidate (rng i)).center.2)
                ((room_candidate (rng i)).center.1)]
            hfail' (by simp)
            (by intro r hr; simpa using hr)
            (fun x y h => create_v_tunnel_mono _ _ _ _ x y
              (create_h_tunnel_mono _ _ _ _ x y (create_room_mono _ map x y h)))
            (fun x y hx1 hx2 hy1 hy2 => create_v_tunnel_mono _ _ _ _ x y
              (create_h_tunnel_mono _ _ _ _ x y
                (create_room_carves _ map x y hx1 hx2 hy1 hy2)))
            (fun x y hall => by
              rw [create_v_tunnel_outside _ _ _ _ x y (hall _ (by simp)),
                create_h_tunnel_outside _ _ _ _ x y (hall _ (by simp)),
                create_room_outside _ _ x y (hall _ (by simp))])
            inv1 inv2 inv3 inv4
          exact ih (i + 1) _ _ _ j1 j2 j3 j4
        · have hcoin' : (rng i).coin = false := by simpa using hcoin
          have hstep : make_map_loop rng i (count + 1) map (prev_room :: rest) trace =
              make_map_loop rng (i + 1) count
                (create_h_tunnel prev_room.center.1 ((room_candidate (rng i)).center.1)
                  ((room_candidate (rng i)).center.2)
                  (create_v_tunnel prev_room.center.2 ((room_candidate (rng i)).center.2)
                    prev_room.center.1 (create_room (room_candidate (rng i)) map)))
                (room_candidate (rng i) :: prev_room :: rest)
                (Carve.room (room_candidate (rng i)) ::
                  Carve.vtun prev_room.center.2 ((room_candidate (rng i)).center.2)
                    prev_room.center.1 ::
                  Carve.htun prev_room.center.1 ((room_candidate (rng i)).center.1)
                    ((room_candidate (rng i)).center.2) :: trace) := by
            simp only [make_map_loop, hcoin']
            rw [if_neg hfail]
            simp
          rw [hstep]
          obtain ⟨j1, j2, j3, j4⟩ := accepted_step_inv map
            (create_h_tunnel prev_room.center.1 ((room_candidate (rng i)).center.1)
              ((room_candidate (rng i)).center.2)
              (create_v_tunnel prev_room.center.2 ((room_candidate (rng i)).center.2)
                prev_room.center.1 (create_room (room_candidate (rng i)) map)))
            (prev_room :: rest) trace (room_candidate (rng i))
            [Carve.room (room_candidate (rng i)),
              Carve.vtun prev_room.center.2 ((room_candidate (rng i)).center.2)
                prev_room.center.1,
              Carve.htun prev_room.center.1 ((room_candidate (rng i)).center.1)
                ((room_candidate (rng i)).center.2)]
            hfail' (by simp)
            (by intro r hr; simpa using hr)
            (fun x y h => create_h_tunnel_mono _ _ _ _ x y
              (create_v_tunnel_mono _ _ _ _ x y (create_room_mono _ map x y h)))
            (fun x y hx1 hx2 hy1 hy2 => create_h_tunnel_mono _ _ _ _ x y
              (create_v_tunnel_mono _ _ _ _ x y
                (create_room_carves _ map x y hx1 hx2 hy1 hy2)))
            (fun x y hall => by
              rw [create_h_tunnel_outside _ _ _ _ x y (hall _ (by simp)),
                create_v_tunnel_outside _ _ _ _ x y (hall _ (by simp)),
                create_room_outside _ _ x y (hall _ (by simp))])
            inv1 inv2 inv3 inv4
          exact ih (i + 1) _ _ _ j1 j2 j3 j4

/-- Claim C8: for every generated map, no two accepted rooms satisfy the
rectangle-overlap predicate; every tile strictly inside an accepted room's
rectangle (excluding the boundary ring) is carved (`blocked = false`,
`block_sight = false`, i.e. `Tile.empty`); every tile not touched by any
room-interior or tunnel carve remains a wall; and the room carves recorded
in the trace are exactly the accepted rooms. -/
theorem claim_C8_make_map (rng : Nat → RoomDraw) :
    List.Pairwise
      (fun a b => a.intersects_with b = false ∧ b.intersects_with a = false)
      (make_map rng).2.1 ∧
    (∀ room ∈ (make_map rng).2.1, ∀ x y : Int,
      room.x1 + 1 ≤ x → x < room.x2 → room.y1 + 1 ≤ y → y < room.y2 →
      (make_map rng).1 x y = Tile.empty) ∧
    (∀ x y : Int, (∀ c ∈ (make_map rng).2.2, c.contains x y = false) →
      (make_map rng).1 x y = Tile.wall) ∧
    (∀ room : Rect, Carve.room room ∈ (make_map rng).2.2 ↔
      room ∈ (make_map rng).2.1) := by
  exact make_map_loop_inv rng MAX_ROOMS 0 (fun _ _ => Tile.wall) [] []
    List.Pairwise.nil (by simp) (fun x y _ => rfl) (by simp)

/-- Witness for claim C8 on a concrete run: with a constant rng only one
room is ever accepted (every later candidate coincides with it and is
rejected by the overlap test), and the never-carved corner tile `(0, 0)`
is still a wall. -/
theorem claim_C8_make_map_witness :
    (make_map (fun _ => RoomDraw.mk 0 0 0 0 true)).1 0 0 = Tile.wall :=
  (claim_C8_make_map (fun _ => RoomDraw.mk 0 0 0 0 true)).2.2.1 0 0 (by decide)

end Rogue
